import Mathlib

/-!
Verification of the chat-mirroring and entitlement-reply subsystem of the
SlackV3 integration (src/Packs/Slack/Integrations/SlackV3/SlackV3.py).

Python strings are embedded as `List Char`; Python dictionaries holding
heterogeneous data are embedded as typed records, except where the source
relies on dynamic keys (then a small `PyDict` model is used).  External
collaborators (the Slack SDK transport and the demisto host) are embedded
as oracle records supplying their responses; every call to them is recorded
as an explicit effect.
-/

namespace SlackV3

abbrev Str := List Char

/-- Shorthand for turning a Lean string literal into the `List Char` model. -/
def str (s : String) : Str := s.data

/-- Left brace character (written via its code point). -/
def lbrace : Char := Char.ofNat 123

/-- Right brace character (written via its code point). -/
def rbrace : Char := Char.ofNat 125

/-- Hexadecimal digit, as in the character class `[0-9a-fA-F]` of GUID_REGEX. -/
def isHexDigit (c : Char) : Bool :=
  (('0' ≤ c ∧ c ≤ '9') ∨ ('a' ≤ c ∧ c ≤ 'f') ∨ ('A' ≤ c ∧ c ≤ 'F') : Prop) |> decide

/-- The character class `[\d_]` of ENTITLEMENT_REGEX (ASCII digits or underscore). -/
def isDigitOrUnderscore (c : Char) : Bool :=
  c.isDigit || c = '_'

/-- Python's `\s` restricted to ASCII: space, tab, newline, carriage return,
form feed, vertical tab.  `\S` is its complement. -/
def isPySpace (c : Char) : Bool :=
  c = ' ' || c = '\t' || c = '\n' || c = '\r' || c = Char.ofNat 12 || c = Char.ofNat 11

/-- Python's `\w` restricted to ASCII: letters, digits, underscore.  Used by
the `\b` word-boundary assertion. -/
def isWordChar (c : Char) : Bool :=
  c.isAlphanum || c = '_'

/-- Python `str.split(sep)` for a one-character separator: splits on every
occurrence, keeping empty parts; always returns at least one part. -/
def splitOnChar (sep : Char) : Str → List Str
  | [] => [[]]
  | c :: rest =>
    match splitOnChar sep rest with
    | [] => [[]]
    | p :: ps => if c = sep then [] :: p :: ps else (c :: p) :: ps

/-- Whether `needle` occurs as a contiguous substring of `hay`
(Python's `needle in hay` / `hay.find(needle) != -1`). -/
def containsSubstr (hay needle : Str) : Bool :=
  match hay with
  | [] => needle.isEmpty
  | _ :: rest => needle.isPrefixOf hay || containsSubstr rest needle

/-- Python `hay.replace(needle, '', 1)`: removes the first (leftmost)
occurrence of `needle`; for an empty needle the result is `hay` itself
(replacing the empty string once with the empty string changes nothing). -/
def pyReplaceFirst (needle : Str) : Str → Str
  | [] => []
  | c :: rest =>
    if ¬ needle.isEmpty ∧ needle.isPrefixOf (c :: rest) then (c :: rest).drop needle.length
    else c :: pyReplaceFirst needle rest

/-- Python truthiness of a string: nonempty. -/
def truthy (s : Str) : Bool := ¬ s.isEmpty

/-- Python truthiness of an optional string (`None` and `''` are falsy). -/
def truthyOpt : Option Str → Bool
  | none => false
  | some s => truthy s

/-! ### The entitlement regular expression

The source defines
`GUID_REGEX = r'(\{){0,1}[0-9a-fA-F]{8}\-[0-9a-fA-F]{4}\-[0-9a-fA-F]{4}\-[0-9a-fA-F]{4}\-[0-9a-fA-F]{12}(\}){0,1}'`
and
`ENTITLEMENT_REGEX = r'{}@(({})|(?:[\d_]+))_*(\|\S+)?\b'.format(GUID_REGEX, GUID_REGEX)`.

The matcher below implements `re.search` for exactly this pattern:
candidate continuations are produced in the backtracking priority order of
Python's engine (greedy options first, left alternative first), positions are
tried left to right, and the first success wins.  A "candidate" is the
remaining suffix of the input after consuming part of the pattern.
-/

/-- Consume exactly `n` hexadecimal digits. -/
def consumeHex : Nat → Str → Option Str
  | 0, s => some s
  | _ + 1, [] => none
  | n + 1, c :: rest => if isHexDigit c then consumeHex n rest else none

/-- Consume one fixed character. -/
def consumeChar (c : Char) : Str → Option Str
  | [] => none
  | d :: rest => if d = c then some rest else none

/-- Consume the brace-free core of GUID_REGEX:
`[0-9a-fA-F]{8}\-[0-9a-fA-F]{4}\-[0-9a-fA-F]{4}\-[0-9a-fA-F]{4}\-[0-9a-fA-F]{12}`. -/
def guidCore (s : Str) : Option Str :=
  consumeHex 8 s >>= consumeChar '-' >>= consumeHex 4 >>= consumeChar '-' >>=
    consumeHex 4 >>= consumeChar '-' >>= consumeHex 4 >>= consumeChar '-' >>= consumeHex 12

/-- Candidates after the optional opening brace `(\{){0,1}` (greedy: the
branch consuming the brace is tried first). -/
def openBraceCands (s : Str) : List Str :=
  match s with
  | c :: rest => if c = lbrace then [rest, c :: rest] else [s]
  | [] => [s]

/-- Candidates after the optional closing brace `(\}){0,1}` (greedy). -/
def closeBraceCands (s : Str) : List Str :=
  match s with
  | c :: rest => if c = rbrace then [rest, c :: rest] else [s]
  | [] => [s]

/-- Candidates (remaining suffixes, in priority order) after matching
GUID_REGEX at the head of `s`. -/
def guidCands (s : Str) : List Str :=
  ((openBraceCands s).filterMap guidCore).flatMap closeBraceCands

/-- Candidates after a greedy `+` over a character class: longest run first,
down to one character; empty if no character of the class is at the head. -/
def plusCands (cls : Char → Bool) (s : Str) : List Str :=
  let run := (s.takeWhile cls).length
  (List.range run).map (fun k => s.drop (run - k))

/-- Candidates after a greedy `*` over a character class: longest first,
down to the empty consumption. -/
def starCands (cls : Char → Bool) (s : Str) : List Str :=
  let run := (s.takeWhile cls).length
  (List.range (run + 1)).map (fun k => s.drop (run - k))

/-- Candidates after the alternation `(({GUID})|(?:[\d_]+))`: the GUID branch
is tried first, then the digits-or-underscores branch. -/
def idCands (s : Str) : List Str :=
  guidCands s ++ plusCands isDigitOrUnderscore s

/-- Candidates after the optional `(\|\S+)?` (greedy: present first). -/
def taskCands (s : Str) : List Str :=
  match s with
  | c :: rest => if c = '|' then plusCands (fun d => ¬ isPySpace d) rest ++ [s] else [s]
  | [] => [s]

/-- The `\b` word-boundary assertion between the last consumed character and
the head of the remaining suffix (end of input counts as a non-word side). -/
def boundaryOk (lastC : Char) (rest : Str) : Bool :=
  isWordChar lastC != (match rest.head? with | some c => isWordChar c | none => false)

/-- All candidate suffixes, in backtracking priority order, that remain after
matching `GUID@((GUID)|[\d_]+)_*(\|\S+)?` starting at the head of `s` (the
final `\b` is not yet checked). -/
def entCandidates (s : Str) : List Str :=
  (((((guidCands s).filterMap (consumeChar '@')).flatMap idCands).flatMap
    (starCands (fun c => c = '_'))).flatMap taskCands)

/-- `re.match` of ENTITLEMENT_REGEX at the head of `s`: the length of the
first (highest-priority) candidate that also satisfies the trailing `\b`. -/
def entMatchAt (s : Str) : Option Nat :=
  (entCandidates s).findSome? (fun t =>
    let consumed := s.length - t.length
    match s.get? (consumed - 1) with
    | some lastC => if boundaryOk lastC t then some consumed else none
    | none => none)

/-- `re.search(ENTITLEMENT_REGEX, text)`: scan start positions left to right
and return the matched substring (`match.group()`) of the first position where
the pattern matches. -/
def reSearchEntitlementAux : Str → Option Str
  | [] => none
  | c :: rest =>
    match entMatchAt (c :: rest) with
    | some n => some ((c :: rest).take n)
    | none => reSearchEntitlementAux rest

/-- The matched entitlement token in `text`, if any. -/
def reSearchEntitlement (text : Str) : Option Str :=
  reSearchEntitlementAux text

/-! ### Python dynamic values

`handle_dm` and the vendor-response accessors use Python dictionaries with
dynamic keys; a small model of Python values covers the shapes that occur
(strings, `None`, and one level of nested dictionary such as a user's
`profile`).  `PyKey.builtinId` stands for the Python built-in function `id`
used (erroneously) as a dictionary key at SlackV3.py:434. -/

inductive PyKey where
  | s (v : Str)
  | builtinId
  deriving DecidableEq

/-- Whether a dictionary key is an ordinary string key. -/
def PyKey.isStrKey : PyKey → Bool
  | .s _ => true
  | .builtinId => false

inductive PyLeaf where
  | str (v : Str)
  | null
  deriving DecidableEq

inductive PyVal where
  | leaf (v : PyLeaf)
  | dict (d : List (PyKey × PyLeaf))
  deriving DecidableEq

abbrev PyDict := List (PyKey × PyVal)

/-- Python `d.get(k)` (default `None`, embedded as `Option`). -/
def pyGet (d : PyDict) (k : PyKey) : Option PyVal :=
  (d.find? (fun p => p.1 = k)).map (fun p => p.2)

/-- Python `d.get(k, '')` for string-valued entries. -/
def pyGetStrD (d : PyDict) (k : Str) (dflt : Str) : Str :=
  match pyGet d (.s k) with
  | some (.leaf (.str v)) => v
  | _ => dflt

/-- Python `d.get(k, {})` for dictionary-valued entries (one level deep). -/
def pyGetDictD (d : PyDict) (k : Str) : List (PyKey × PyLeaf) :=
  match pyGet d (.s k) with
  | some (.dict v) => v
  | _ => []

/-- `d.get(k)` on a flat (leaf-valued) dictionary; `none` both for an absent
key and for a stored `None`. -/
def pyLeafGet (d : List (PyKey × PyLeaf)) (k : Str) : Option Str :=
  match (d.find? (fun p => p.1 = PyKey.s k)).map (fun p => p.2) with
  | some (PyLeaf.str v) => some v
  | _ => none

/-! ### Data model

Typed views of the JSON objects the integration stores in its integration
context (the Context Store).  Collapsed representations, observationally
equal to the dictionaries under every accessor the source applies to them:

* a user's `profile` sub-dictionary is collapsed to its `email` field, the
  only field the core reads (`.get('profile', {}).get('email')` becomes
  `email`, `.get('profile', {}).get('email', '')` becomes `email.getD []`);
* an absent collection key and a present-but-empty collection are collapsed
  to `[]`: every read guards with truthiness (absent and `'[]'`-loaded-empty
  take the same branch in every consumer);
* a question's `reply` is `Option (Option Str)`: outer `none` = key absent,
  inner `none` = stored Python `None` (`save_entitlement` always stores the
  key, so the outer layer matters only for foreign store contents). -/

structure SlackUser where
  id : Str
  name : Str
  real_name : Str
  email : Option Str
  deriving DecidableEq

structure Conversation where
  id : Str
  name : Str
  deriving DecidableEq

structure Question where
  thread : Str
  entitlement : Str
  reply : Option (Option Str)
  expiry : Option Str
  sent : Str
  default_response : Option Str
  remove : Bool
  deriving DecidableEq

structure Mirror where
  channel_id : Str
  channel_name : Str
  investigation_id : Str
  mirror_type : Str
  mirror_direction : Str
  mirror_to : Str
  auto_close : Bool
  mirrored : Bool
  channel_topic : Option Str
  remove : Bool
  deriving DecidableEq

/-- The integration context (Context Store) keys this integration persists. -/
structure Store where
  mirrors : List Mirror
  questions : List Question
  users : List SlackUser
  conversations : List Conversation
  bot_id : Option Str
  deriving DecidableEq

/-- Errors a Python code path can raise. -/
inductive PyErr where
  | unboundLocal (name : Str)
  | indexError
  | attributeError
  | typeError
  | valueError (msg : Str)
  | slackApi (msg : Str)
  deriving DecidableEq

/-- An approximation of Python `str(e)` for the listener's error report. -/
def PyErr.msg : PyErr → Str
  | .unboundLocal n => str "local variable " ++ n ++ str " referenced before assignment"
  | .indexError => str "list index out of range"
  | .attributeError => str "NoneType object has no attribute"
  | .typeError => str "unexpected type"
  | .valueError m => m
  | .slackApi m => m

/-- A user record returned by the host's mirror-lifecycle registration
(`demisto.mirrorInvestigation`): a username and email to invite. -/
structure DemistoUser where
  username : Str
  email : Str
  deriving DecidableEq

/-- A case incident as handled by `create_incidents`; labels are
`(type, value)` pairs. -/
structure Incident where
  name : Option Str
  itype : Option Str
  labels : List (Str × Str)
  deriving DecidableEq

/-- One externally visible side effect (a call to the demisto host or to the
Slack transport). -/
inductive Effect where
  | resolved (incident_id guid : Str) (email : Option Str) (content task_id : Str)
  | postMessage (channel : Str) (thread_ts : Option Str) (text : Str)
  | postMessageB (channel : Str) (thread_ts : Option Str) (text blocks : Str)
  | addEntry (investigation_id entry username email footer : Str)
  | mirrorInv (investigation_id mode : Str) (auto_close : Bool)
  | inviteToConv (channel_id : Str) (user_id : Str)
  | createConv (name : Str) (is_private : Bool)
  | setTopic (channel_id topic : Str)
  | leaveConv (channel_id : Str)
  | openConv (users_arg : Option PyVal)
  | createdIncidents (incidents : List Incident) (user_id : Str)
  | health (msg : Str)
  | errorLog (msg : Str)
  | results (msg : Str)
  | warnResult (msg : Str)
  deriving DecidableEq

/-! ### The Context Store write contract -/

/-- Insert-or-replace one element into an accumulator keyed by `key`,
mirroring a Python dict update: an existing key keeps its position, a new key
is appended. -/
def upsertByKey (key : α → Str) (acc : List α) (x : α) : List α :=
  if acc.any (fun y => key y = key x) then acc.map (fun y => if key y = key x then x else y)
  else acc ++ [x]

/-- Modelled from the spec: the Context Store write
(`set_to_integration_context_with_retries` / `merge_lists` of
CommonServerPython, which is imported by the source but not part of this
repository).  Each collection is keyed by a declared identity field
(`OBJECTS_TO_KEYS`: mirrors by `investigation_id`, questions by
`entitlement`, users by `id`); a write merges the updated list over the
stored list by key, and entries flagged for removal are dropped ("a mirror
marked for removal is excluded from all lookups"; a resolved question "is
consumed and removed"). -/
def mergeByKey (key : α → Str) (isRemoved : α → Bool) (orig upd : List α) : List α :=
  (upd.foldl (upsertByKey key) (orig.foldl (upsertByKey key) [])).filter
    (fun x => ¬ isRemoved x)

/-- Persist an updated `questions` list (keyed by `entitlement`). -/
def Store.setQuestions (s : Store) (upd : List Question) : Store :=
  { s with questions := mergeByKey (fun q => q.entitlement) (fun q => q.remove) s.questions upd }

/-- Persist an updated `mirrors` list (keyed by `investigation_id`). -/
def Store.setMirrors (s : Store) (upd : List Mirror) : Store :=
  { s with mirrors := mergeByKey (fun m => m.investigation_id) (fun m => m.remove) s.mirrors upd }

/-- Persist an updated `users` list (keyed by `id`; user records carry no
removal flag). -/
def Store.setUsers (s : Store) (upd : List SlackUser) : Store :=
  { s with users := mergeByKey (fun u => u.id) (fun _ => false) s.users upd }

/-- Persist the `conversations` list.  `conversations` has no entry in
`OBJECTS_TO_KEYS`, so the write replaces the stored list wholesale. -/
def Store.setConversations (s : Store) (upd : List Conversation) : Store :=
  { s with conversations := upd }

/-! ### Entitlement codec -/

/-- Embeds `extract_entitlement` (SlackV3.py:99–118).  Python indexes
`parts[1]` unconditionally, which raises IndexError when the entitlement
contains no `'@'`; that failure is embedded as `none`.  Returns
`(content, guid, incident_id, task_id)`. -/
def extract_entitlement (entitlement text : Str) : Option (Str × Str × Str × Str) :=
  match splitOnChar '@' entitlement with
  | [] => none
  | [_] => none
  | guid :: second :: _ =>
    match splitOnChar '|' second with
    | [] => none
    | incident_id :: rest =>
      let task_id : Str := match rest with | [] => [] | t :: _ => t
      some (pyReplaceFirst entitlement text, guid, incident_id, task_id)

/-- The fixed acknowledgment returned for an in-text entitlement
(SlackV3.py:270) and the default threaded reply (SlackV3.py:281). -/
def thanksReply : Str := str "Thank you for your response."

/-- `q.get('reply', 'Thank you for your response.')`: the default fires only
when the key is absent; a stored Python `None` is returned as-is. -/
def questionReply (q : Question) : Option Str :=
  match q.reply with
  | none => some thanksReply
  | some v => v

/-- Set `question['remove'] = True` on the first question of the list whose
`thread` equals `th` (the in-place mutation of `question_filter[0]` at
SlackV3.py:285). -/
def markFirstQuestionRemove (th : Str) : List Question → List Question
  | [] => []
  | q :: qs =>
    if q.thread = th then { q with remove := true } :: qs
    else q :: markFirstQuestionRemove th qs

/-- Embeds `check_and_handle_entitlement` (SlackV3.py:252–290).  Returns the
reply (a Python string or `None`), the store after any persistence, and the
emitted effects. -/
def check_and_handle_entitlement (text : Str) (user : SlackUser) (thread_id : Option Str)
    (store : Store) : Except PyErr (Option Str × Store × List Effect) :=
  match reSearchEntitlement text with
  | some tok =>
    match extract_entitlement tok text with
    | none => .error .indexError
    | some (content, guid, incident_id, task_id) =>
      .ok (some thanksReply, store,
        [.resolved incident_id guid user.email content task_id])
  | none =>
    match thread_id with
    | none => .ok (some [], store, [])
    | some th =>
      if store.questions ≠ [] ∧ th ≠ [] then
        match store.questions.find? (fun q => q.thread = th) with
        | some q =>
          match extract_entitlement q.entitlement text with
          | none => .error .indexError
          | some (content, guid, incident_id, task_id) =>
            .ok (questionReply q,
              store.setQuestions (markFirstQuestionRemove th store.questions),
              [.resolved incident_id guid user.email content task_id])
        | none => .ok (some [], store, [])
      else .ok (some [], store, [])

/-- Embeds `save_entitlement` (SlackV3.py:1039–1063); `now` is the caller's
formatted current UTC time. -/
def save_entitlement (now entitlement thread : Str) (reply expiry default_response : Option Str)
    (store : Store) : Store :=
  store.setQuestions (store.questions ++
    [{ thread := thread, entitlement := entitlement, reply := some reply,
       expiry := expiry, sent := now, default_response := default_response,
       remove := false }])

/-! ### Further string helpers -/

/-- Python `str.lower()` (ASCII scope). -/
def toLowerStr (s : Str) : Str := s.map Char.toLower

/-- Python `str.replace(needle, repl)` for a nonempty needle: replaces every
occurrence left to right, scanning past each replacement. -/
def pyReplaceAllAux (needle repl : Str) : Str → Str
  | [] => []
  | c :: rest =>
    if needle.isPrefixOf (c :: rest) ∧ ¬ needle.isEmpty then
      repl ++ pyReplaceAllAux needle repl ((c :: rest).drop needle.length)
    else c :: pyReplaceAllAux needle repl rest
termination_by s => s.length
decreasing_by
  · rename_i hcond
    have hne : 1 ≤ needle.length := by
      rcases needle with _ | ⟨d, ds⟩
      · simp [List.isEmpty] at hcond
      · simp
    simp only [List.length_drop, List.length_cons]
    omega
  · simp

/-- Python `str.replace(needle, repl)`; an empty needle matches at every
position, so the replacement is interleaved between all characters. -/
def pyReplaceAll (needle repl : Str) (s : Str) : Str :=
  if needle.isEmpty then repl ++ s.flatMap (fun c => c :: repl)
  else pyReplaceAllAux needle repl s

/-- The suffix of `s` after the first occurrence of `needle`
(`re.search('(?<=needle).*', s).group()` for a string with no newlines);
`none` when `needle` does not occur. -/
def findAfterSubstr (needle : Str) : Str → Option Str
  | [] => if needle.isEmpty then some [] else none
  | c :: rest =>
    if needle.isPrefixOf (c :: rest) then some ((c :: rest).drop needle.length)
    else findAfterSubstr needle rest

/-- The prefix of `s` before the first occurrence of `needle`
(`re.sub('needle.*', '', s)` for a nonempty needle and no newlines). -/
def cutBeforeSubstr (needle : Str) : Str → Str
  | [] => []
  | c :: rest =>
    if needle.isPrefixOf (c :: rest) then []
    else c :: cutBeforeSubstr needle rest

/-- Python `str.strip()`. -/
def pyStrip (s : Str) : Str :=
  ((s.dropWhile isPySpace).reverse.dropWhile isPySpace).reverse

/-! ### External collaborators

All responses from the Slack transport and the demisto host are supplied by
an oracle record; configuration parameters (`init_globals`) by a parameter
record.  The `*Pages` fields model the vendor's finite pagination: the first
`users_list`/`conversations_list` call yields the head page and a next-cursor
exists exactly while further pages remain. -/

/-- The fields `slack_send` reads off a JSON-encoded entitlement message
(SlackV3.py:995–1013); each is a `.get` with a `None` default. -/
structure SendParsed where
  entitlement : Option Str
  message : Option Str
  blocks : Option Str
  reply : Option Str
  expiry : Option Str
  default_response : Option Str
  deriving DecidableEq

structure Params where
  allowIncidents : Bool
  incidentType : Str
  dedicatedChannel : Str
  severityThreshold : Int
  notifyIncidents : Bool
  filteredTags : List Str

structure Env where
  usersPages : List (List SlackUser)
  conversationsPages : List (List Conversation)
  usersInfo : Str → PyDict
  conversationsInfo : Str → PyDict
  conversationsOpenId : Option PyVal → Str
  createConversation : Str → Bool → Conversation
  botId : Str
  investigation : Option (Str × Nat)
  serverLink : Str
  warRoomLink : Option Str
  mirrorInvUsers : Str → Str → Bool → List DemistoUser
  inviteError : Str → Str → Option Str
  findUserByEmail : Str → Option PyDict
  findUserByUsername : Str → Option PyDict
  directMessage : Str → Str → Option Str → Bool → Except Str (Option Str)
  parseIncidents : Str → Except Str (List Incident)
  createIncidents : List Incident → Str → Option (Str × Str)
  parseActionValue : Str → Except PyErr (Option Str × Option (Option Str))
  parseSendJson : Str → Option SendParsed
  postMessageError : Str → Option Str
  postMessageRetryError : Str → Option Str
  postTs : Str → Option Str

/-- First match across the vendor's pages: each page is filtered in turn and
pagination stops at a match or when no next-cursor remains. -/
def searchPages (f : α → Bool) : List (List α) → Option α
  | [] => none
  | page :: rest =>
    match page.find? f with
    | some x => some x
    | none => searchPages f rest

/-! ### Cached lookups -/

/-- Embeds `get_user_by_id_async` (SlackV3.py:227–249).  The local variable
`user` is assigned only under `if user_filter:`; on any cache miss (users key
absent, cache empty, or id not cached) the subsequent `if not user:` reads it
unbound and Python raises UnboundLocalError, so the live-query fallback
written below that test is unreachable. -/
def get_user_by_id_async (store : Store) (user_id : Str) : Except PyErr SlackUser :=
  match store.users.find? (fun u => u.id = user_id) with
  | some u => .ok u
  | none => .error (.unboundLocal (str "user"))

/-- The triple name/email/real-name match of `get_user_by_name`
(SlackV3.py:1110 and 1128), against an already-lowercased search string. -/
def userMatches (s : Str) (u : SlackUser) : Bool :=
  toLowerStr u.name = s || toLowerStr (u.email.getD []) = s || toLowerStr u.real_name = s

/-- Embeds `get_user_by_name` (SlackV3.py:1091–1153): cache first, then the
paginated vendor directory; a vendor hit is appended to the cached list and
persisted when `add_to_context` is set. -/
def get_user_by_name (env : Env) (store : Store) (user_to_search : Str)
    (add_to_context : Bool) : Option SlackUser × Store :=
  let s := toLowerStr user_to_search
  match store.users.find? (userMatches s) with
  | some u => (some u, store)
  | none =>
    match searchPages (userMatches s) env.usersPages with
    | some u =>
      if add_to_context then (some u, store.setUsers (store.users ++ [u]))
      else (some u, store)
    | none => (none, store)

/-- Embeds `get_conversation_by_name` (SlackV3.py:868–930): the cache lookup
is case-insensitive, the vendor lookup compares the name verbatim; a vendor
hit is appended to the cached list and persisted. -/
def get_conversation_by_name (env : Env) (store : Store) (conversation_name : Str) :
    Option Conversation × Store :=
  let s := toLowerStr conversation_name
  match store.conversations.find? (fun c => toLowerStr c.name = s) with
  | some c => (some c, store)
  | none =>
    match searchPages (fun c => c.name = conversation_name) env.conversationsPages with
    | some c => (some c, store.setConversations (store.conversations ++ [c]))
    | none => (none, store)

/-- Embeds `get_slack_name` (SlackV3.py:140–180).  A vendor fallback reads
`.get('name', '')` directly off the SlackResponse, whose top level is
supplied by the `usersInfo`/`conversationsInfo` oracles. -/
def get_slack_name (env : Env) (store : Store) (slack_id : Str) : Str :=
  match slack_id with
  | [] => []
  | p :: _ =>
    if p = 'C' ∨ p = 'D' ∨ p = 'G' then
      let sid := (splitOnChar '|' slack_id).headD []
      match store.conversations.find? (fun c => c.id = sid) with
      | some c => c.name
      | none => pyGetStrD (env.conversationsInfo sid) (str "name") []
    else if p = 'U' then
      match store.users.find? (fun u => u.id = slack_id) with
      | some u => u.name
      | none => pyGetStrD (env.usersInfo slack_id) (str "name") []
    else []

/-! ### Message cleaning (`clean_message`) -/

/-- Scan to the first `'>'`, failing at a newline or the end of input
(the `.*?>` part of the tag patterns); returns the part before the `'>'`
and the suffix after it. -/
def scanToGt : Str → Option (Str × Str)
  | [] => none
  | c :: rest =>
    if c = '>' then some ([], rest)
    else if c = '\n' then none
    else
      match scanToGt rest with
      | some (inner, after) => some (c :: inner, after)
      | none => none

theorem scanToGt_length_lt : ∀ {s p}, scanToGt s = some p → p.2.length < s.length := by
  intro s
  induction s with
  | nil => intro p h; simp [scanToGt] at h
  | cons c rest ih =>
    intro p h
    simp only [scanToGt] at h
    split at h
    · cases h; simp
    · split at h
      · cases h
      · rcases hr : scanToGt rest with _ | q
        · rw [hr] at h; cases h
        · rw [hr] at h
          cases h
          have := ih hr
          simpa using Nat.lt_succ_of_lt this

/-- `re.findall('<M(.*?)>', s)` for a tag marker `M` (`@` or `#`): the inner
groups of all non-overlapping matches, scanning left to right. -/
def findallTag (mark : Char) : Str → List Str
  | [] => []
  | [_] => []
  | a :: b :: r2 =>
    if a = '<' ∧ b = mark then
      match h : scanToGt r2 with
      | some p => p.1 :: findallTag mark p.2
      | none => findallTag mark (b :: r2)
    else findallTag mark (b :: r2)
termination_by s => s.length
decreasing_by
  · have := scanToGt_length_lt h
    simp only [List.length_cons]
    omega
  · simp
  · simp

/-- `re.sub('<M(.*?)>', r'\1', s)`: each tag is replaced by its inner group. -/
def subTag (mark : Char) : Str → Str
  | [] => []
  | [c] => [c]
  | a :: b :: r2 =>
    if a = '<' ∧ b = mark then
      match h : scanToGt r2 with
      | some p => p.1 ++ subTag mark p.2
      | none => a :: subTag mark (b :: r2)
    else a :: subTag mark (b :: r2)
termination_by s => s.length
decreasing_by
  · have := scanToGt_length_lt h
    simp only [List.length_cons]
    omega
  · simp
  · simp

/-- Index of the last `'>'` in a line, if any. -/
def lastGtIdx (l : Str) : Option Nat :=
  match l.reverse.findIdx? (fun c => c = '>') with
  | some k => some (l.length - 1 - k)
  | none => none

/-- The backtracking core of URL_EXPRESSION `<(https?://.+?)(?:\|.+)?>`
after at least one body character has been consumed: returns
`(extra body characters, total characters consumed to the end of the
match)`.  A `'|'` closes the match at the last `'>'` of the line when at
least one character separates them (greedy `.+` inside the optional group,
backtracked from the end of the line); otherwise the non-greedy body grows
one character at a time, never across a newline. -/
def urlScan : Str → Option (Nat × Nat)
  | [] => none
  | c :: rest =>
    if c = '>' then some (0, 1)
    else if c = '\n' then none
    else if c = '|' then
      match lastGtIdx (rest.takeWhile (fun d => d ≠ '\n')) with
      | some g =>
        if 1 ≤ g then some (0, g + 2)
        else (urlScan rest).map (fun p => (p.1 + 1, p.2 + 1))
      | none => (urlScan rest).map (fun p => (p.1 + 1, p.2 + 1))
    else (urlScan rest).map (fun p => (p.1 + 1, p.2 + 1))

/-- The scheme consumed after `'<'`: `https?://` (greedy optional `s`). -/
def urlSchemeLen (s : Str) : Option Nat :=
  if (str "https://").isPrefixOf s then some 8
  else if (str "http://").isPrefixOf s then some 7
  else none

/-- `re.sub(URL_EXPRESSION, r'\1', s)`: each matched URL tag is replaced by
its first group (scheme and body, without the optional `|...` part and the
closing `'>'`). -/
def subUrl : Str → Str
  | [] => []
  | c :: rest =>
    if c = '<' then
      match urlSchemeLen rest with
      | some k =>
        match hd : rest.drop k with
        | [] => c :: subUrl rest
        | b :: r2 =>
          if b = '\n' then c :: subUrl rest
          else
            match urlScan r2 with
            | some p =>
              (rest.take k ++ b :: r2.take p.1) ++ subUrl (r2.drop p.2)
            | none => c :: subUrl rest
      | none => c :: subUrl rest
    else c :: subUrl rest
termination_by s => s.length
decreasing_by
  all_goals simp only [List.length_cons, List.length_drop]
  all_goals
    first
      | omega
      | (have hlen := congrArg List.length hd
         simp only [List.length_drop, List.length_cons] at hlen
         omega)

/-- Embeds `clean_message` (SlackV3.py:183–204): collect the user- and
channel-tag ids, strip the tag brackets, replace every occurrence of each id
by its Slack name, then strip URL tags. -/
def clean_message (env : Env) (store : Store) (message : Str) : Str :=
  let tagIds := findallTag '@' message ++ findallTag '#' message
  let m1 := subTag '@' message
  let m2 := subTag '#' m1
  let m3 := tagIds.foldl (fun acc m => pyReplaceAll m (get_slack_name env store m) acc) m2
  subUrl m3

/-- The fixed footer attached to relayed case notes (MESSAGE_FOOTER). -/
def messageFooter : Str := str "\n**From Slack**"

/-- The dictionary view of a cached user record, as the Python dict it
stands for (string keys only). -/
def SlackUser.toPyDict (u : SlackUser) : PyDict :=
  [(PyKey.s (str "id"), PyVal.leaf (.str u.id)),
   (PyKey.s (str "name"), PyVal.leaf (.str u.name)),
   (PyKey.s (str "real_name"), PyVal.leaf (.str u.real_name)),
   (PyKey.s (str "profile"), PyVal.dict [(PyKey.s (str "email"),
      match u.email with | some e => PyLeaf.str e | none => PyLeaf.null)])]

/-- Embeds `handle_text` (SlackV3.py:207–224): a nonempty text is appended to
the investigation as a note with the sender's name and email and the fixed
footer. -/
def handle_text (env : Env) (store : Store) (investigation_id text : Str)
    (user : PyDict) : List Effect :=
  if truthy text then
    [.addEntry investigation_id (clean_message env store text)
      (pyGetStrD user (str "name") [])
      ((pyLeafGet (pyGetDictD user (str "profile")) (str "email")).getD [])
      messageFooter]
  else []

/-! ### Direct-message handling -/

/-- The backtick character (written via its code point). -/
def backtick : Char := Char.ofNat 96

/-- Embeds `create_incidents`' label enrichment (SlackV3.py:306–316): the
reporter labels are appended only when their types are absent (the `keys`
list is computed before any append). -/
def addReporterLabels (user_name user_email : Str) (inc : Incident) : Incident :=
  let keys := inc.labels.map (fun l => l.1)
  let l1 := if keys.contains (str "Reporter") then inc.labels
            else inc.labels ++ [(str "Reporter", user_name)]
  let l2 := if keys.contains (str "ReporterEmail") then l1
            else l1 ++ [(str "ReporterEmail", user_email)]
  let l3 := if keys.contains (str "Source") then l2
            else l2 ++ [(str "Source", str "Slack")]
  { inc with labels := l3 }

/-- Embeds `create_incidents` (SlackV3.py:293–323): enrich labels, then hand
the incidents to the host (the host's return is supplied by the
`createIncidents` oracle as the created incident's `(name, id)`, collapsing
the list-vs-single-dict unwrapping of SlackV3.py:384–385; `none` is a falsy
creation result). -/
def create_incidents (env : Env) (incidents : List Incident)
    (user_name user_email user_demisto_id : Str) :
    Option (Str × Str) × List Effect :=
  let incs := incidents.map (addReporterLabels user_name user_email)
  (env.createIncidents incs user_demisto_id, [.createdIncidents incs user_demisto_id])

/-- The success text of `translate_create` (SlackV3.py:390). -/
def createdIncidentText (env : Env) (nm iid : Str) : Str :=
  str "Successfully created incident " ++ nm ++ str ".\n View it on: " ++
    env.serverLink ++ str "#/WarRoom/" ++ iid

/-- Embeds `translate_create` (SlackV3.py:326–392).  The lookbehind patterns
`(?<=json=).*` etc. are the suffix after the first occurrence of the marker
(newlines have been removed first); `re.sub('type=.*', '', ...)` is the
prefix before the marker.  JSON decoding is the `parseIncidents` oracle; an
oracle decode error is the raised exception the caller catches. -/
def translate_create (env : Env) (params : Params) (message0 user_name user_email : Str)
    (demisto_user : Option PyDict) : Except Str (Str × List Effect) :=
  let message := pyReplaceAll [backtick] [] (pyReplaceAll (str "\n") [] message0)
  let user_demisto_id := match demisto_user with
    | some du => pyGetStrD du (str "id") []
    | none => []
  match findAfterSubstr (str "json=") message with
  | some jsonPart =>
    if (findAfterSubstr (str "name=") message).isSome ∨
       (findAfterSubstr (str "type=") message).isSome then
      .ok (str "No other properties other than json should be specified.", [])
    else
      match env.parseIncidents (pyReplaceAll (str "”") (str "\x22")
          (pyReplaceAll (str "“") (str "\x22") jsonPart)) with
      | .error e => .error e
      | .ok incidents =>
        let r := create_incidents env incidents user_name user_email user_demisto_id
        match r.1 with
        | none => .ok (str "Failed creating incidents.", r.2)
        | some (nm, iid) => .ok (createdIncidentText env nm iid, r.2)
  | none =>
    match findAfterSubstr (str "name=") message with
    | none =>
      .ok (str "Please specify arguments in the following manner: name=<name> type=[type] or json=<json>.", [])
    | some nameRest =>
      let incident_name := pyStrip (cutBeforeSubstr (str "type=") nameRest)
      let incident_type : Str := match findAfterSubstr (str "type=") message with
        | some tyRest => pyStrip (cutBeforeSubstr (str "name=") tyRest)
        | none => []
      let ty := if truthy incident_type then incident_type else params.incidentType
      let inc : Incident :=
        { name := some incident_name,
          itype := if truthy ty then some ty else none,
          labels := [] }
      let r := create_incidents env [inc] user_name user_email user_demisto_id
      match r.1 with
      | none => .ok (str "Failed creating incidents.", r.2)
      | some (nm, iid) => .ok (createdIncidentText env nm iid, r.2)

/-- The argument the source passes as the user set of `conversations_open`
(SlackV3.py:434): `user.get(id)` — `id` is the Python built-in function, not
the string key `'id'`. -/
def handle_dm_users_arg (user : PyDict) : Option PyVal :=
  pyGet user PyKey.builtinId

/-- The response-text computation of `handle_dm` (SlackV3.py:408–430): the
incident-creation grammar branch or the opaque `directMessage` pass-through,
with the effects it produced. -/
def handle_dm_data (env : Env) (params : Params) (user : PyDict) (text : Str) :
    Str × List Effect :=
  let message := toLowerStr text
  if containsSubstr message (str "incident") ∧
     (containsSubstr message (str "create") ∨ containsSubstr message (str "open") ∨
      containsSubstr message (str "new")) then
    let user_email := (pyLeafGet (pyGetDictD user (str "profile")) (str "email")).getD []
    let user_name := pyGetStrD user (str "name") []
    let demisto_user : Option PyDict :=
      if truthy user_email then env.findUserByEmail user_email
      else env.findUserByUsername (pyGetStrD user (str "name") [])
    if demisto_user = none ∧ ¬ params.allowIncidents then
      (str "You are not allowed to create incidents.", [])
    else
      match translate_create env params text user_name user_email demisto_user with
      | .ok de => de
      | .error e => (str "Failed creating incidents: " ++ e, [])
  else
    match env.directMessage text (pyGetStrD user (str "name") [])
        (pyLeafGet (pyGetDictD user (str "profile")) (str "email")) params.allowIncidents with
    | .ok v => (v.getD [], [])
    | .error e => (e, [])

/-- Embeds `handle_dm` (SlackV3.py:395–437).  The computed response text is
posted to the channel returned by `conversations_open`, which is called with
`users=user.get(id)` (see `handle_dm_users_arg`). -/
def handle_dm (env : Env) (params : Params) (user : PyDict) (text : Str) : List Effect :=
  let dataEff := handle_dm_data env params user text
  let data := if truthy dataEff.1 then dataEff.1
              else str "Sorry, I could not perform the selected operation."
  let users_arg := handle_dm_users_arg user
  let channel := env.conversationsOpenId users_arg
  dataEff.2 ++ [.openConv users_arg, .postMessage channel none data]

/-! ### The event dispatcher (`process`) -/

/-- An interactive action inside a socket-mode payload: its `value` JSON
string and its `text` sub-dictionary. -/
structure PyAction where
  value : Option Str
  text : Option (List (PyKey × PyLeaf))
  deriving DecidableEq

/-- The projections of one socket-mode request that `process` reads
(SlackV3.py:520–546).  Absent string fields are the `''` defaults the
source supplies; `thread` is `event.get('thread_ts', None)`;
`message_subtype` collapses `data.get('message', {}).get('subtype')` to
`''` when absent. -/
structure SMEvent where
  dataType : Str
  errorCode : Str
  errorMsg : Str
  subtype : Str
  text : Str
  user_id : Str
  channel : Str
  message_bot_id : Str
  thread : Option Str
  message_subtype : Str
  actions : List PyAction
  action_channel : Str
  action_user_id : Str

/-- Embeds `handle_listen_error` (SlackV3.py:129–137). -/
def handle_listen_error (msg : Str) : List Effect :=
  [.errorLog msg, .health msg]

/-- Embeds `answer_question` (SlackV3.py:121–126) including the dynamic
failures of `extract_entitlement` on `None` arguments: a `None` entitlement
fails on `.split`, a `None` text fails on `.replace` only after the
entitlement was split successfully.  The try/except wraps only the host
call, whose success is assumed (the host oracle does not raise). -/
def answer_question (textOpt entOpt : Option Str) (email : Option Str) :
    Except PyErr (List Effect) :=
  match entOpt with
  | none => .error .attributeError
  | some ent =>
    match textOpt with
    | none =>
      match splitOnChar '@' ent with
      | _ :: _ :: _ => .error .attributeError
      | _ => .error .indexError
    | some text =>
      match extract_entitlement ent text with
      | none => .error .indexError
      | some (content, guid, incident_id, task_id) =>
        .ok [.resolved incident_id guid email content task_id]

/-- The interactive-action branch of `process` (SlackV3.py:543–551):
returns the entitlement reply and the effects of answering the question. -/
def processActions (env : Env) (ev : SMEvent) (a : PyAction) :
    Except PyErr (Option Str × List Effect) :=
  match a.value with
  | none => .error .typeError
  | some vjson =>
    match env.parseActionValue vjson with
    | .error e => .error e
    | .ok (entOpt, replyOpt) =>
      let entitlement_reply : Option Str :=
        match replyOpt with
        | none => some (str "Thank you for your reply.")
        | some v => v
      match a.text with
      | none => .error .attributeError
      | some td =>
        let action_text := pyLeafGet td (str "text")
        let userResp := env.usersInfo ev.action_user_id
        let email := pyLeafGet (pyGetDictD userResp (str "profile")) (str "email")
        match answer_question action_text entOpt email with
        | .error e => .error e
        | .ok effs => .ok (entitlement_reply, effs)

/-- The mirror-relay loop of `process` (SlackV3.py:578–602), iterating the
channel's `mirror_filter` while mutating the local `mirrors` list.  A
`FromDemisto`-direction or `none`-type mirror makes the whole handler
`return` (third component `true`), aborting the remaining mirrors.
`mirrors.pop(mirrors.index(mirror))` raises ValueError when the element is
absent.  `auto_close` is modeled as the boolean it holds after the source's
defensive `strtobool` of string values. -/
def processMirrorLoop (env : Env) (text : Str) (user : PyDict) :
    List Mirror → List Mirror → Store → List Effect →
    Except (PyErr × Store × List Effect) (Store × List Effect × Bool)
  | [], _, store, effs => .ok (store, effs, false)
  | m :: rest, mirrors, store, effs =>
    if m.mirror_direction = str "FromDemisto" ∨ m.mirror_type = str "none" then
      .ok (store, effs, true)
    else if ¬ m.mirrored then
      if mirrors.contains m then
        let mirrors1 := mirrors.erase m
        if truthy m.mirror_to ∧ truthy m.mirror_direction ∧ truthy m.mirror_type then
          let m1 := { m with mirrored := true }
          let mirrors2 := mirrors1 ++ [m1]
          let store1 := store.setMirrors mirrors2
          let effs1 := effs ++
            [.mirrorInv m.investigation_id (m.mirror_type ++ str ":" ++ m.mirror_direction)
              m.auto_close] ++
            handle_text env store1 m.investigation_id text user
          processMirrorLoop env text user rest mirrors2 store1 effs1
        else
          let effs1 := effs ++ handle_text env store m.investigation_id text user
          processMirrorLoop env text user rest mirrors1 store effs1
      else .error (.valueError (str "x not in list"), store, effs)
    else
      let effs1 := effs ++ handle_text env store m.investigation_id text user
      processMirrorLoop env text user rest mirrors store effs1

/-- The body of `process`'s try block (SlackV3.py:532–604).  The result
carries the store and the effects; an error carries the store and effects
already produced when it was raised.  The boolean-free `.ok` paths append
the final `updateModuleHealth('')` reset exactly when the source reaches
line 604 (early `return`s skip it). -/
def processTry (env : Env) (params : Params) (ev : SMEvent) (store : Store) :
    Except (PyErr × Store × List Effect) (Store × List Effect) :=
  let branch : Except PyErr (Option Str × PyDict × Str × Store × List Effect) :=
    match ev.actions with
    | a :: _ =>
      match processActions env ev a with
      | .error e => .error e
      | .ok (reply, effs) =>
        .ok (reply, env.usersInfo ev.action_user_id, ev.action_channel, store, effs)
    | [] =>
      match get_user_by_id_async store ev.user_id with
      | .error e => .error e
      | .ok u =>
        match check_and_handle_entitlement ev.text u ev.thread store with
        | .error e => .error e
        | .ok (reply, store1, effs) => .ok (reply, u.toPyDict, ev.channel, store1, effs)
  match branch with
  | .error e => .error (e, store, [])
  | .ok (reply, userD, channel, store1, effs0) =>
    if ev.subtype = str "bot_message" ∨ truthy ev.message_bot_id ∨
       ev.message_subtype = str "bot_message" then
      .ok (store1, effs0)
    else if truthyOpt reply then
      .ok (store1, effs0 ++ [.postMessage channel ev.thread (reply.getD []), .health []])
    else if (match channel with | [] => false | c :: _ => c = 'D') then
      .ok (store1, effs0 ++ handle_dm env params userD ev.text ++ [.health []])
    else
      let mirror_filter := store1.mirrors.filter (fun m => m.channel_id = channel)
      if mirror_filter = [] then .ok (store1, effs0)
      else
        match processMirrorLoop env ev.text userD mirror_filter store1.mirrors store1 effs0 with
        | .error r => .error r
        | .ok (store2, effs2, early) =>
          if early then .ok (store2, effs2)
          else .ok (store2, effs2 ++ [.health []])

/-- Embeds `process` (SlackV3.py:520–606): the error frame short-circuits to
`handle_listen_error`; any exception in the try body is caught and reported
the same way, after the store writes and effects that already happened. -/
def process (env : Env) (params : Params) (ev : SMEvent) (store : Store) :
    Store × List Effect :=
  if ev.dataType = str "error" then
    (store, handle_listen_error (str "Slack API has thrown an error. Code: " ++
      ev.errorCode ++ str ", Message: " ++ ev.errorMsg ++ str "."))
  else
    match processTry env params ev store with
    | .ok (store1, effs) => (store1, effs)
    | .error (e, store1, effs) =>
      (store1, effs ++ handle_listen_error
        (str "Error occurred while listening to Slack: " ++ e.msg))

/-! ### Channel membership -/

/-- Embeds `invite_users_to_conversation` (SlackV3.py:1433–1452): each user
is invited in turn; an `already_in_channel` or `cant_invite_self` vendor
error is swallowed, any other SlackApiError propagates.  The `inviteError`
oracle supplies the vendor outcome; an error result carries the invite
attempts already made. -/
def invite_users_to_conversation (env : Env) (conversation_id : Str) :
    List Str → Except (PyErr × List Effect) (List Effect)
  | [] => .ok []
  | u :: rest =>
    let att := Effect.inviteToConv conversation_id u
    match env.inviteError conversation_id u with
    | none =>
      match invite_users_to_conversation env conversation_id rest with
      | .ok effs => .ok (att :: effs)
      | .error (e, effs) => .error (e, att :: effs)
    | some msg =>
      if containsSubstr msg (str "already_in_channel") ∨
         containsSubstr msg (str "cant_invite_self") then
        match invite_users_to_conversation env conversation_id rest with
        | .ok effs => .ok (att :: effs)
        | .error (e, effs) => .error (e, att :: effs)
      else .error (.slackApi msg, [att])

/-- The user-resolution pass of `invite_to_mirrored_channel`
(SlackV3.py:450–469): resolve each host user by email, then by username,
both with `add_to_context=False` (no cache write); unresolved users produce
a warning result entry. -/
def inviteResolveUsers (env : Env) (store : Store) :
    List DemistoUser → List SlackUser × List Effect
  | [] => ([], [])
  | du :: rest =>
    let byEmail : Option SlackUser :=
      if truthy du.email then (get_user_by_name env store du.email false).1 else none
    let slack_user : Option SlackUser :=
      match byEmail with
      | some u => some u
      | none => if truthy du.username then (get_user_by_name env store du.username false).1
                else none
    let r := inviteResolveUsers env store rest
    match slack_user with
    | some u => (u :: r.1, r.2)
    | none =>
      (r.1, .warnResult (str "User " ++ du.username ++ str " not found in Slack") :: r.2)

/-- Embeds `invite_to_mirrored_channel` (SlackV3.py:440–474). -/
def invite_to_mirrored_channel (env : Env) (store : Store) (channel_id : Str)
    (users : List DemistoUser) : Except (PyErr × List Effect) (List SlackUser × List Effect) :=
  let r := inviteResolveUsers env store users
  match invite_users_to_conversation env channel_id (r.1.map (fun u => u.id)) with
  | .ok invEffs => .ok (r.1, r.2 ++ invEffs)
  | .error (e, invEffs) => .error (e, r.2 ++ invEffs)

/-! ### The Background Poller (`check_for_mirrors`) -/

/-- The per-mirror work of one `check_for_mirrors` iteration on a
processed (non-activated, fully specified) mirror (SlackV3.py:490-508): the
lifecycle registration, the membership grant with its caught-and-logged
failure, and the activated copy destined for the context write. -/
def pollStep (env : Env) (store : Store) (m : Mirror) :
    List Mirror × List SlackUser × List Effect :=
  let mode := m.mirror_type ++ str ":" ++ m.mirror_direction
  let users := env.mirrorInvUsers m.investigation_id mode m.auto_close
  let base := [Effect.mirrorInv m.investigation_id mode m.auto_close]
  if m.mirror_type ≠ str "none" then
    match invite_to_mirrored_channel env store m.channel_id users with
    | .ok (invited, ie) => ([{ m with mirrored := true }], invited, base ++ ie)
    | .error (e, ie) =>
      ([{ m with mirrored := true }], [],
        base ++ ie ++
          [.errorLog (str "Could not invite investigation users to the mirrored channel: " ++
            e.msg)])
  else ([{ m with mirrored := true }], [], base)

/-- The for-loop of `check_for_mirrors` (SlackV3.py:486–510) with CPython
semantics: the loop holds a numeric cursor into `mirrors` while the body
pops processed elements out of the same list, so after each pop the element
that slid into the current position is skipped.  Errors during one mirror's
invites are caught and logged (SlackV3.py:501–505) and do not stop the
pass; the per-mirror work is `pollStep`. -/
def checkForMirrorsLoop (env : Env) (store : Store) (idx : Nat) (mirrors updM : List Mirror)
    (updU : List SlackUser) (effs : List Effect) :
    List Mirror × List SlackUser × List Effect :=
  if h : idx < mirrors.length then
    let m := mirrors.get ⟨idx, h⟩
    if ¬ m.mirrored then
      let mirrors1 := mirrors.erase m
      if truthy m.mirror_to ∧ truthy m.mirror_direction ∧ truthy m.mirror_type then
        let step := pollStep env store m
        checkForMirrorsLoop env store (idx + 1) mirrors1
          (updM ++ step.1) (updU ++ step.2.1) (effs ++ step.2.2)
      else
        checkForMirrorsLoop env store (idx + 1) mirrors1 updM updU effs
    else
      checkForMirrorsLoop env store (idx + 1) mirrors updM updU effs
  else (updM, updU, effs)
termination_by mirrors.length - idx
decreasing_by
  all_goals
    first
      | omega
      | (rw [List.length_erase_of_mem (List.get_mem _ _ _)]
         omega)

/-- Embeds `check_for_mirrors` (SlackV3.py:477–517): one Background Poller
pass.  Only when at least one mirror was processed is the store written,
with the processed mirrors (and any invited users) merged over it. -/
def check_for_mirrors (env : Env) (store : Store) : Store × List Effect :=
  let r := checkForMirrorsLoop env store 0 store.mirrors [] [] []
  if r.1 ≠ [] then
    let store1 := store.setMirrors r.1
    let store2 := if r.2.1 ≠ [] then store1.setUsers r.2.1 else store1
    (store2, r.2.2)
  else (store, r.2.2)

/-! ### The mirror-request command (`mirror_investigation`) -/

/-- The arguments of the mirror-request command as received from the host
(`demisto.args().get(...)`); `none` when the argument is absent. -/
structure MirrorArgs where
  mtype : Option Str
  autoclose : Option Str
  direction : Option Str
  mirrorTo : Option Str
  channelName : Option Str
  channelTopic : Option Str
  kickAdmin : Option Str

/-- `distutils.util.strtobool`. -/
def pyStrtobool (s : Str) : Except PyErr Bool :=
  let v := toLowerStr s
  if v = str "y" ∨ v = str "yes" ∨ v = str "t" ∨ v = str "true" ∨ v = str "on" ∨ v = str "1" then
    .ok true
  else if v = str "n" ∨ v = str "no" ∨ v = str "f" ∨ v = str "false" ∨ v = str "off" ∨
      v = str "0" then
    .ok false
  else .error (.valueError (str "invalid truth value"))

def incidentChannelName (investigation_id : Str) : Str :=
  str "incident-" ++ investigation_id

def playgroundInvestigationType : Nat := 9

/-- Python `', '.join(xs)`. -/
def joinComma : List Str → Str
  | [] => []
  | [x] => x
  | x :: xs => x ++ str ", " ++ joinComma xs

/-- The introductory message posted into a freshly created mirror channel
(SlackV3.py:739–740). -/
def firstMessageText (env : Env) (investigation_id : Str) : Str :=
  str "This channel was created to mirror incident " ++ investigation_id ++
    str ". \n View it on: " ++ env.serverLink ++ str "#/WarRoom/" ++ investigation_id

/-- The tail of `mirror_investigation` (SlackV3.py:705–743): derive the
channel topic, persist mirror and conversations, optionally kick the admin
and post the introductory message, and emit the success result.  `mirrors`
is the local list at this point (the current mirror popped out in the
update path, not yet appended). -/
def finishMirror (env : Env) (store : Store) (effs : List Effect) (mirrors : List Mirror)
    (conversations : List Conversation) (mirror : Mirror)
    (conversation_id conversation_name : Str) (send_first_message : Bool)
    (investigation_id channel_topic0 : Str) (kick_admin : Bool) :
    Except (Str × Store × List Effect) (Store × List Effect) :=
  let topicRes : Except Str (Bool × Str) :=
    if truthy channel_topic0 then .ok (true, channel_topic0)
    else
      let mirror_name := incidentChannelName investigation_id
      let channel_filter := mirrors.filter (fun m => m.channel_name = conversation_name)
      let ctopic : Except Str Str :=
        match mirror.channel_topic with
        | some t => .ok t
        | none =>
          match channel_filter with
          | cm :: _ =>
            match cm.channel_topic with
            | some t => .ok t
            | none => .error (str "KeyError: channel_topic")
          | [] => .ok []
      match ctopic with
      | .error e => .error e
      | .ok channel_topic1 =>
        let mirrored_ids := channel_filter.map (fun m => incidentChannelName m.investigation_id)
        if ¬ truthy channel_topic1 ∨ containsSubstr channel_topic1 (str "incident-") then
          let new_topic := joinComma (mirrored_ids ++ [mirror_name])
          if channel_topic1 ≠ new_topic then .ok (true, new_topic)
          else .ok (false, channel_topic1)
        else .ok (false, channel_topic1)
  match topicRes with
  | .error e => .error (e, store, effs)
  | .ok st =>
    let effs1 := effs ++ (if st.1 then [Effect.setTopic conversation_id st.2] else [])
    let mirrors1 := mirrors ++ [{ mirror with channel_topic := some st.2 }]
    let store1 := (store.setMirrors mirrors1).setConversations conversations
    let effs2 := effs1 ++ (if kick_admin then [Effect.leaveConv conversation_id] else [])
    let effs3 := effs2 ++ (if send_first_message then
        [Effect.postMessage conversation_id none (firstMessageText env investigation_id)]
      else [])
    .ok (store1, effs3 ++
      [.results (str "Investigation mirrored successfully, channel: " ++ conversation_name)])

/-- Embeds `mirror_investigation` (SlackV3.py:609–743).  An error result is
the raised `return_error` (or exception) message together with the store and
effects at the abort point. -/
def mirror_investigation (env : Env) (args : MirrorArgs) (store : Store) :
    Except (Str × Store × List Effect) (Store × List Effect) :=
  let mirror_type := args.mtype.getD (str "all")
  let auto_close_s := args.autoclose.getD (str "true")
  let mirror_direction := args.direction.getD (str "both")
  let mirror_to := args.mirrorTo.getD (str "group")
  let channel_name0 := (args.channelName.getD [])
  let channel_topic0 := (args.channelTopic.getD [])
  match pyStrtobool (args.kickAdmin.getD (str "false")) with
  | .error e => .error (e.msg, store, [])
  | .ok kick_admin =>
    match env.investigation with
    | none => .error (str "AttributeError: NoneType has no attribute get", store, [])
    | some inv =>
      if inv.2 = playgroundInvestigationType then
        .error (str "Can not perform this action in playground.", store, [])
      else
        let investigation_id := inv.1
        let mirrors0 := store.mirrors
        let conversations0 := store.conversations
        let current_mirror := mirrors0.filter (fun m => m.investigation_id = investigation_id)
        let channel_filter0 :=
          if truthy channel_name0 then
            mirrors0.filter (fun m => m.channel_name = channel_name0)
          else []
        match current_mirror with
        | [] =>
          let channel_name :=
            if truthy channel_name0 then channel_name0
            else incidentChannelName investigation_id
          match channel_filter0 with
          | [] =>
            let isPrivate := mirror_to ≠ str "channel"
            let conversation := env.createConversation channel_name isPrivate
            let conversations1 := conversations0 ++ [conversation]
            let effs1 := [Effect.createConv channel_name isPrivate]
            let bs : Str × Store :=
              match store.bot_id with
              | some b => (b, store)
              | none => (env.botId, { store with bot_id := some env.botId })
            match invite_users_to_conversation env conversation.id [bs.1] with
            | .error (e, ie) => .error (e.msg, bs.2, effs1 ++ ie)
            | .ok ie =>
              match pyStrtobool auto_close_s with
              | .error e => .error (e.msg, bs.2, effs1 ++ ie)
              | .ok ac =>
                let mirror : Mirror :=
                  { channel_id := conversation.id, channel_name := conversation.name,
                    investigation_id := investigation_id, mirror_type := mirror_type,
                    mirror_direction := mirror_direction, mirror_to := mirror_to,
                    auto_close := ac, mirrored := false, channel_topic := none,
                    remove := false }
                finishMirror env bs.2 (effs1 ++ ie) mirrors0 conversations1 mirror
                  conversation.id conversation.name true investigation_id channel_topic0
                  kick_admin
          | mc :: _ =>
            match pyStrtobool auto_close_s with
            | .error e => .error (e.msg, store, [])
            | .ok ac =>
              let mirror : Mirror :=
                { channel_id := mc.channel_id, channel_name := mc.channel_name,
                  investigation_id := investigation_id, mirror_type := mirror_type,
                  mirror_direction := mirror_direction, mirror_to := mirror_to,
                  auto_close := ac, mirrored := false, channel_topic := none,
                  remove := false }
              finishMirror env store [] mirrors0 conversations0 mirror mc.channel_id
                mc.channel_name false investigation_id channel_topic0 kick_admin
        | cm :: _ =>
          let mirrors1 := mirrors0.erase cm
          let conversation_id := cm.channel_id
          let m1 := if truthy mirror_type then { cm with mirror_type := mirror_type } else cm
          match (if truthy auto_close_s then (pyStrtobool auto_close_s).map some
                 else .ok none) with
          | .error e => .error (e.msg, store, [])
          | .ok acOpt =>
            let m2 := match acOpt with | some ac => { m1 with auto_close := ac } | none => m1
            let m3 := if truthy mirror_direction then
                { m2 with mirror_direction := mirror_direction } else m2
            if truthy mirror_to ∧ cm.mirror_to ≠ mirror_to then
              .error (str "Cannot change the Slack channel type from Demisto.", store, [])
            else if truthy channel_name0 then
              .error (str "Cannot change the Slack channel name.", store, [])
            else if truthy channel_topic0 then
              .error (str "Cannot change the Slack channel topic.", store, [])
            else
              finishMirror env store [] mirrors1 conversations0
                { m3 with mirrored := false } conversation_id cm.channel_name false
                investigation_id channel_topic0 kick_admin

/-! ### The outbound send path (`slack_send`) -/

def mirrorTypeConst : Str := str "mirrorEntry"

def incidentOpenedConst : Str := str "incidentOpened"

def incidentNotificationChannelConst : Str := str "incidentNotificationChannel"

/-- Python `int(s)` on a string, with failure as `none`
(`slack_send` turns the exception into a `None` severity). -/
def pyParseInt (s : Str) : Option Int :=
  let t := pyStrip s
  match t with
  | [] => none
  | c :: rest =>
    if c = '-' then
      if rest ≠ [] ∧ rest.all Char.isDigit then
        some (-(rest.foldl (fun a d => a * 10 + (Int.ofNat (d.toNat - 48))) 0))
      else none
    else if c = '+' then
      if rest ≠ [] ∧ rest.all Char.isDigit then
        some (rest.foldl (fun a d => a * 10 + (Int.ofNat (d.toNat - 48))) 0)
      else none
    else if t.all Char.isDigit then
      some (t.foldl (fun a d => a * 10 + (Int.ofNat (d.toNat - 48))) 0)
    else none

/-- The arguments of the send command (`demisto.args().get(...)`), `none`
for an absent argument.  `entryObjectTags` is `entryObject.get('tags', [])`
with `none` for an absent/None `entryObject` (reading tags off it then
raises AttributeError). -/
structure SendArgs where
  message : Option Str
  toUser : Option Str
  channel : Option Str
  group : Option Str
  messageType : Option Str
  originalMessage : Option Str
  entry : Option Str
  ignoreAddURL : Option Str
  threadId : Option Str
  severity : Option Str
  blocks : Option Str
  entryObjectTags : Option (List Str)

/-- Embeds `send_message_to_destinations` (SlackV3.py:1371–1400): posts to
each destination in turn; the vendor error for a destination is supplied by
`errOracle`, the ts of the last response by the `postTs` oracle.  Returns
the effects and the last response's ts (`none` when no destination was
posted to, i.e. a `None` response). -/
def send_message_to_destinations (env : Env) (errOracle : Str → Option Str)
    (message thread_id blocks : Str) :
    List Str → Except (PyErr × List Effect) (List Effect × Option (Option Str))
  | [] => .ok ([], none)
  | d :: rest =>
    match errOracle d with
    | some msg => .error (.slackApi msg, [])
    | none =>
      let eff := Effect.postMessageB d
        (if truthy thread_id then some thread_id else none)
        (if truthy message then message else []) (if truthy blocks then blocks else [])
      match send_message_to_destinations env errOracle message thread_id blocks rest with
      | .ok (effs, resp) =>
        .ok (eff :: effs, match resp with | none => some (env.postTs d) | some t => some t)
      | .error (e, effs) => .error (e, eff :: effs)

/-- Invite the bot to every destination (the self-heal loop of
SlackV3.py:1365–1366). -/
def inviteBotToAll (env : Env) (bot_id : Str) :
    List Str → Except (PyErr × List Effect) (List Effect)
  | [] => .ok []
  | d :: rest =>
    match invite_users_to_conversation env d [bot_id] with
    | .error (e, ie) => .error (e, ie)
    | .ok ie =>
      match inviteBotToAll env bot_id rest with
      | .ok more => .ok (ie ++ more)
      | .error (e, more) => .error (e, ie ++ more)

/-- Embeds `send_message` (SlackV3.py:1317–1368): default message text,
optional war-room link appending, one self-heal retry (invite the bot, send
again) on a `not_in_channel`/`channel_not_found` vendor error, any other
error propagating. -/
def send_message (env : Env) (store : Store) (destinations : List Str) (entry : Str)
    (ignore_add_url : Option Str) (message0 thread_id blocks : Str) :
    Except (PyErr × List Effect) (List Effect × Option (Option Str)) :=
  let message1 :=
    if ¬ truthy message0 then
      (if truthy blocks then str "New message from SOC Bot" else str "\n")
    else message0
  let iau : Except PyErr Bool :=
    match ignore_add_url with
    | none => .ok false
    | some s => if truthy s then pyStrtobool s else .ok false
  match iau with
  | .error e => .error (e, [])
  | .ok ig =>
    let message2 :=
      if truthy message1 ∧ ¬ truthy blocks ∧ ¬ ig then
        match env.investigation with
        | some inv =>
          if inv.2 ≠ playgroundInvestigationType then
            match env.warRoomLink with
            | some link =>
              let link1 := if truthy entry then link ++ str "/" ++ entry else link
              message1 ++ str "\nView it on: " ++ link1
            | none => message1
          else
            if truthy env.serverLink then
              message1 ++ str "\nView it on: " ++ env.serverLink ++ str "#/home"
            else message1
        | none => message1
      else message1
  match send_message_to_destinations env env.postMessageError message2 thread_id blocks
      destinations with
  | .ok r => .ok r
  | .error (e, effs) =>
    match e with
    | .slackApi msg =>
      if containsSubstr msg (str "not_in_channel") ∨
         containsSubstr msg (str "channel_not_found") then
        let bot_id := store.bot_id.getD env.botId
        match inviteBotToAll env bot_id destinations with
        | .error (e2, ie) => .error (e2, effs ++ ie)
        | .ok ie =>
          match send_message_to_destinations env env.postMessageRetryError message2
              thread_id blocks destinations with
          | .ok (se, resp) => .ok (effs ++ ie ++ se, resp)
          | .error (e2, se) => .error (e2, effs ++ ie ++ se)
      else .error (e, effs)
    | _ => .error (e, effs)

/-- Embeds `slack_send_request` (SlackV3.py:1156–1221) for the message
command (the file branch belongs to the separate file command and is not
reached from `slack_send`).  Resolves the destination and sends; a
`return_error` carries the store and effects at the abort. -/
def slack_send_request (env : Env) (store : Store) (toDest channel group entry : Str)
    (ignore_add_url : Option Str) (thread_id message blocks : Str) :
    Except (Str × Store × List Effect) (Store × List Effect × Option (Option Str)) :=
  let mirrors := store.mirrors
  let toRes : Store × List Effect × List Str :=
    if truthy toDest then
      match get_user_by_name env store toDest true with
      | (none, store1) =>
        (store1, [.errorLog (str "Could not find the Slack user " ++ toDest)], [])
      | (some u, store1) =>
        let arg : Option PyVal := some (PyVal.leaf (.str u.id))
        (store1, [.openConv arg], [env.conversationsOpenId arg])
    else (store, [], [])
  let store1 := toRes.1
  let effs1 := toRes.2.1
  let destsRes : Except (Str × Store × List Effect) (Store × List Effect × List Str) :=
    if (truthy channel ∨ truthy group) ∧ toRes.2.2 = [] then
      let destination_name := if truthy channel then channel else group
      match mirrors.find? (fun m => incidentChannelName m.investigation_id = destination_name) with
      | some cmirror =>
        .ok (store1, effs1,
          if truthy cmirror.channel_id then [cmirror.channel_id] else [])
      | none =>
        match get_conversation_by_name env store1 destination_name with
        | (none, store2) =>
          .error (str "Could not find the Slack conversation " ++ destination_name, store2, effs1)
        | (some conv, store2) =>
          .ok (store2, effs1, if truthy conv.id then [conv.id] else [])
    else .ok (store1, effs1, toRes.2.2)
  match destsRes with
  | .error r => .error r
  | .ok (store2, effs2, dests) =>
    if dests = [] then
      .error (str "Could not find any destination to send to.", store2, effs2)
    else
      match send_message env store2 dests entry ignore_add_url message thread_id blocks with
      | .error (e, se) => .error (e.msg, store2, effs2 ++ se)
      | .ok (se, resp) => .ok (store2, effs2 ++ se, resp)

/-- The part of `slack_send` after the early mirror-entry returns
(SlackV3.py:966–1036): destination validation, severity gating, channel
remapping, entitlement extraction, the send, and the entitlement save. -/
def slackSendMain (env : Env) (params : Params) (args : SendArgs) (now : Str)
    (store : Store) : Except (Str × Store × List Effect) (Store × List Effect) :=
  let message := args.message.getD []
  let toDest := args.toUser.getD []
  let original_channel := args.channel.getD []
  let group := args.group.getD []
  let message_type := args.messageType.getD []
  let entry := args.entry.getD []
  let thread_id := args.threadId.getD []
  let blocks0 := args.blocks.getD []
  if (truthy toDest ∧ truthy group) ∨ (truthy toDest ∧ truthy original_channel) ∨
     (truthy toDest ∧ truthy original_channel ∧ truthy group) then
    .error (str "Only one destination can be provided.", store, [])
  else
    let severity : Option Int :=
      match args.severity with
      | none => none
      | some s => pyParseInt s
    let remap : Str × Str :=
      if original_channel = incidentNotificationChannelConst ∨
         (¬ truthy original_channel ∧ message_type = incidentOpenedConst) then
        (params.dedicatedChannel, incidentNotificationChannelConst)
      else (original_channel, original_channel)
    let severityLow : Bool :=
      match severity with
      | some sv => decide (sv < params.severityThreshold)
      | none => false
    let channel1 :=
      if remap.1 = params.dedicatedChannel ∧ remap.2 = incidentNotificationChannelConst ∧
         (severityLow ∨ ¬ params.notifyIncidents) then []
      else remap.1
    if ¬ (truthy toDest ∨ truthy group ∨ truthy channel1) then
      .error (str "Either a user, group or channel must be provided.", store, [])
    else
      let parsed : Str × Str × Str × Option Str × Option Str × Option Str :=
        if truthy blocks0 then
          match reSearchEntitlement blocks0 with
          | some _ =>
            match env.parseSendJson blocks0 with
            | some p =>
              (message, p.blocks.getD [], p.entitlement.getD [],
               p.reply, p.expiry, p.default_response)
            | none => (message, blocks0, [], some [], some [], some [])
          | none => (message, blocks0, [], some [], some [], some [])
        else if truthy message then
          match reSearchEntitlement message with
          | some _ =>
            match env.parseSendJson message with
            | some p =>
              (p.message.getD [], blocks0, p.entitlement.getD [],
               p.reply, p.expiry, p.default_response)
            | none => (message, blocks0, [], some [], some [], some [])
          | none => (message, blocks0, [], some [], some [], some [])
        else (message, blocks0, [], some [], some [], some [])
      let message1 := parsed.1
      let blocks1 := parsed.2.1
      let entitlement := parsed.2.2.1
      let reply := parsed.2.2.2.1
      let expiry := parsed.2.2.2.2.1
      let default_response := parsed.2.2.2.2.2
      match slack_send_request env store toDest channel1 group entry args.ignoreAddURL
          thread_id message1 blocks1 with
      | .error r => .error r
      | .ok (store2, effs, resp) =>
        match resp with
        | none => .ok (store2, effs ++ [.results (str "Could not send the message to Slack.")])
        | some ts =>
          let store3 :=
            if truthy entitlement then
              save_entitlement now entitlement (ts.getD []) reply expiry default_response store2
            else store2
          .ok (store3, effs ++
            [.results (str "Message sent to Slack successfully.\nThread ID is: " ++
              ts.getD (str "None"))])

/-- Embeds `slack_send` (SlackV3.py:933–1036) including the mirror-entry
early returns and the tag filter. -/
def slack_send (env : Env) (params : Params) (args : SendArgs) (now : Str)
    (store : Store) : Except (Str × Store × List Effect) (Store × List Effect) :=
  let message_type := args.messageType.getD []
  let original_message := args.originalMessage.getD []
  if message_type = mirrorTypeConst ∧ containsSubstr original_message messageFooter then
    .ok (store, [])
  else if message_type = mirrorTypeConst then
    match args.entryObjectTags with
    | none => .error (str "AttributeError: NoneType has no attribute get", store, [])
    | some entry_tags =>
      let tags := params.filteredTags
      if tags ≠ [] ∧ entry_tags = [] then .ok (store, [])
      else if tags ≠ [] ∧ ¬ tags.any (fun t => entry_tags.contains t) then .ok (store, [])
      else slackSendMain env params args now store
  else slackSendMain env params args now store

/-! ## Lemmas about the string primitives -/

theorem splitOnChar_ne_nil (sep : Char) (s : Str) : splitOnChar sep s ≠ [] := by
  cases s with
  | nil => simp [splitOnChar]
  | cons c rest =>
    simp only [splitOnChar]
    split
    · simp
    · split <;> simp

theorem splitOnChar_not_mem {sep : Char} : ∀ {s : Str}, sep ∉ s → splitOnChar sep s = [s] := by
  intro s
  induction s with
  | nil => intro _; rfl
  | cons c rest ih =>
    intro h
    simp only [List.mem_cons, not_or] at h
    simp only [splitOnChar, ih h.2]
    rw [if_neg (Ne.symm h.1)]

theorem splitOnChar_append {sep : Char} :
    ∀ {u : Str} (v : Str), sep ∉ u →
      splitOnChar sep (u ++ sep :: v) = u :: splitOnChar sep v := by
  intro u
  induction u with
  | nil =>
    intro v _
    simp only [List.nil_append, splitOnChar]
    cases h : splitOnChar sep v with
    | nil => exact absurd h (splitOnChar_ne_nil sep v)
    | cons p ps => simp
  | cons a u' ih =>
    intro v h
    simp only [List.mem_cons, not_or] at h
    simp only [List.cons_append, splitOnChar]
    have ih' : splitOnChar sep (u'.append (sep :: v)) = u' :: splitOnChar sep v := ih v h.2
    rw [ih']
    simp [Ne.symm h.1]

theorem pyReplaceFirst_spec {T : Str} (hT : T ≠ []) :
    ∀ {S : Str}, containsSubstr S T = true →
    ∃ A B, S = A ++ T ++ B ∧ pyReplaceFirst T S = A ++ B ∧
      ∀ i, i < A.length → ¬ (T.isPrefixOf (S.drop i) = true) := by
  intro S
  induction S with
  | nil =>
    intro h
    simp only [containsSubstr] at h
    exact absurd (List.isEmpty_iff.mp h) hT
  | cons c rest ih =>
    intro h
    by_cases hp : T.isPrefixOf (c :: rest) = true
    · obtain ⟨B, hB⟩ := List.isPrefixOf_iff_prefix.mp hp
      refine ⟨[], B, by simpa using hB.symm, ?_, ?_⟩
      · have : pyReplaceFirst T (c :: rest) = (c :: rest).drop T.length := by
          simp [pyReplaceFirst, hp, List.isEmpty_iff, hT]
        rw [this, ← hB, List.drop_left]
        simp
      · intro i hi
        simp at hi
    · have h' : containsSubstr rest T = true := by
        simp only [containsSubstr, Bool.or_eq_true] at h
        rcases h with h | h
        · exact absurd h hp
        · exact h
      obtain ⟨A, B, hS, hrep, hmin⟩ := ih h'
      refine ⟨c :: A, B, by simp [hS], ?_, ?_⟩
      · have : pyReplaceFirst T (c :: rest) = c :: pyReplaceFirst T rest := by
          simp [pyReplaceFirst, hp]
        rw [this, hrep]
        simp
      · intro i hi
        cases i with
        | zero => simpa using hp
        | succ j =>
          simp only [List.length_cons] at hi
          simpa using hmin j (by omega)

/-! ## C1 — entitlement-token round-trip -/

/-- C1: for every entitlement token `{uuid}@{case_id}` or
`{uuid}@{case_id}|{task_id}` (components free of the separators `@` and
`|`, as the token grammar requires) and any text `S`, `extract_entitlement`
returns the text with the first occurrence of the token removed exactly
once, together with the exact uuid, case id and task id used to build the
token; the task id is the empty string when the token has no `|` part.
The last two conjuncts state what removed-exactly-once means: when `S`
contains the token, the remaining text is `S` with precisely the leftmost
occurrence cut out. -/
theorem C1_extract_entitlement_roundtrip
    (u c t S : Str)
    (hu : '@' ∉ u) (hc : '@' ∉ c) (hcp : '|' ∉ c) (ht : '@' ∉ t) (htp : '|' ∉ t) :
    (extract_entitlement (u ++ ['@'] ++ c) S =
       some (pyReplaceFirst (u ++ ['@'] ++ c) S, u, c, [])) ∧
    (extract_entitlement (u ++ ['@'] ++ c ++ ['|'] ++ t) S =
       some (pyReplaceFirst (u ++ ['@'] ++ c ++ ['|'] ++ t) S, u, c, t)) ∧
    (containsSubstr S (u ++ ['@'] ++ c) = true →
       ∃ A B, S = A ++ (u ++ ['@'] ++ c) ++ B ∧
         pyReplaceFirst (u ++ ['@'] ++ c) S = A ++ B ∧
         ∀ i, i < A.length → ¬ ((u ++ ['@'] ++ c).isPrefixOf (S.drop i) = true)) ∧
    (containsSubstr S (u ++ ['@'] ++ c ++ ['|'] ++ t) = true →
       ∃ A B, S = A ++ (u ++ ['@'] ++ c ++ ['|'] ++ t) ++ B ∧
         pyReplaceFirst (u ++ ['@'] ++ c ++ ['|'] ++ t) S = A ++ B ∧
         ∀ i, i < A.length →
           ¬ ((u ++ ['@'] ++ c ++ ['|'] ++ t).isPrefixOf (S.drop i) = true)) := by
  have hsplit1 : splitOnChar '@' (u ++ ['@'] ++ c) = u :: splitOnChar '@' c := by
    have := @splitOnChar_append '@' u c hu
    simpa using this
  have hsplit2 : splitOnChar '@' (u ++ ['@'] ++ c ++ ['|'] ++ t) =
      u :: splitOnChar '@' (c ++ ['|'] ++ t) := by
    have := @splitOnChar_append '@' u (c ++ '|' :: t) hu
    simpa using this
  refine ⟨?_, ?_, ?_, ?_⟩
  · simp only [extract_entitlement, hsplit1, splitOnChar_not_mem hc, splitOnChar_not_mem hcp]
  · have hc2 : '@' ∉ c ++ ['|'] ++ t := by
      intro hmem
      rcases List.mem_append.mp hmem with h1 | h1
      · rcases List.mem_append.mp h1 with h2 | h2
        · exact hc h2
        · exact absurd h2 (by decide)
      · exact ht h1
    have hsplitTask : splitOnChar '|' (c ++ ['|'] ++ t) = c :: splitOnChar '|' t := by
      have := @splitOnChar_append '|' c t hcp
      simpa using this
    simp only [extract_entitlement, hsplit2, splitOnChar_not_mem hc2, hsplitTask,
      splitOnChar_not_mem htp]
  · exact fun h => pyReplaceFirst_spec (by simp) h
  · exact fun h => pyReplaceFirst_spec (by simp) h

/-- Witness for C1, at the token `12345678-9abc-def0-1234-56789abcdef0@123|7`
inside the text `ok 12345678-9abc-def0-1234-56789abcdef0@123|7 done`. -/
theorem C1_extract_entitlement_roundtrip_witness :
    extract_entitlement (str "12345678-9abc-def0-1234-56789abcdef0@123|7")
        (str "ok 12345678-9abc-def0-1234-56789abcdef0@123|7 done") =
      some (str "ok  done", str "12345678-9abc-def0-1234-56789abcdef0", str "123", str "7") := by
  have h := (C1_extract_entitlement_roundtrip
    (str "12345678-9abc-def0-1234-56789abcdef0") (str "123") (str "7")
    (str "ok 12345678-9abc-def0-1234-56789abcdef0@123|7 done")
    (by decide) (by decide) (by decide) (by decide) (by decide)).2.1
  exact h

/-! ## Concrete fixtures for witnesses and counterexamples -/

/-- The empty Context Store. -/
def emptyStore : Store :=
  { mirrors := [], questions := [], users := [], conversations := [], bot_id := none }

/-- A neutral oracle environment: empty vendor directories, successful
posts, fixed identifiers. -/
def defaultEnv : Env :=
  { usersPages := []
    conversationsPages := []
    usersInfo := fun _ => []
    conversationsInfo := fun _ => []
    conversationsOpenId := fun _ => str "D1"
    createConversation := fun n _ => { id := str "CNEW", name := n }
    botId := str "B1"
    investigation := none
    serverLink := str "https://server"
    warRoomLink := none
    mirrorInvUsers := fun _ _ _ => []
    inviteError := fun _ _ => none
    findUserByEmail := fun _ => none
    findUserByUsername := fun _ => none
    directMessage := fun _ _ _ _ => .ok none
    parseIncidents := fun _ => .error (str "invalid json")
    createIncidents := fun _ _ => none
    parseActionValue := fun _ => .error .typeError
    parseSendJson := fun _ => none
    postMessageError := fun _ => none
    postMessageRetryError := fun _ => none
    postTs := fun _ => some (str "100") }

/-- Neutral configuration parameters. -/
def defaultParams : Params :=
  { allowIncidents := false, incidentType := [], dedicatedChannel := str "dedicated",
    severityThreshold := 1, notifyIncidents := true, filteredTags := [] }

/-! ## C10 — `handle_dm` opens the reply conversation with `user.get(id)` -/

/-- C10: the argument `handle_dm` passes as the user set of
`conversations_open` is `user.get(id)` with `id` the Python built-in
function, not the string key `'id'`; for every user dictionary whose keys
are all strings this evaluates to `None`, so the reply conversation is
opened with a `None` user set — never with the actual sender id — on every
DM path (second conjunct: the open call recorded by `handle_dm` carries
`none` for all environments, parameters and texts). -/
theorem C10_handle_dm_opens_with_none (user : PyDict)
    (h : user.all (fun p => p.1.isStrKey) = true) :
    handle_dm_users_arg user = none ∧
    ∀ (env : Env) (params : Params) (text : Str),
      Effect.openConv none ∈ handle_dm env params user text := by
  have harg : handle_dm_users_arg user = none := by
    induction user with
    | nil => rfl
    | cons p rest ih =>
      simp only [List.all_cons, Bool.and_eq_true] at h
      have hk : ¬ (p.1 = PyKey.builtinId) := by
        rcases p with ⟨k, v⟩
        cases k with
        | s s0 => simp
        | builtinId => simp [PyKey.isStrKey] at h
      simp only [handle_dm_users_arg, pyGet, List.find?] at ih ⊢
      rw [show (decide (p.1 = PyKey.builtinId)) = false from by simp [hk]]
      exact ih h.2
  refine ⟨harg, ?_⟩
  intro env params text
  simp only [handle_dm, harg]
  exact List.mem_append_right _ (by simp)

/-- Witness for C10, at a concrete cached user record. -/
theorem C10_handle_dm_opens_with_none_witness :
    handle_dm_users_arg (SlackUser.toPyDict
      { id := str "U1", name := str "alice", real_name := str "Alice", email := none }) =
      none :=
  (C10_handle_dm_opens_with_none _ (by decide)).1

/-! ## C8 — cache-miss fallback to the live vendor query -/

/-- A vendor-directory user used by the C8 lookups. -/
def c8User : SlackUser :=
  { id := str "U9", name := str "alice", real_name := str "Alice A",
    email := some (str "alice@x.co") }

/-- C8: a cache miss does NOT always fall back to a live vendor query.
`get_user_by_name` and `get_conversation_by_name` do fall back and cache the
vendor record (third and fourth conjuncts, at a concrete miss), but
`get_user_by_id_async` raises UnboundLocalError on every cache miss — with
the cached collection absent/empty (first conjunct) or populated with other
ids (second conjunct) — because its local `user` is never initialized; the
live-query fallback written below the `if not user:` test is dead code.
The claim is the stated intent of that code; the missing initialization is
the slip. -/
theorem C8_lookup_cache_miss_behavior :
    (get_user_by_id_async emptyStore (str "U1") =
      .error (.unboundLocal (str "user"))) ∧
    (get_user_by_id_async { emptyStore with users := [c8User] } (str "U1") =
      .error (.unboundLocal (str "user"))) ∧
    (get_user_by_name { defaultEnv with usersPages := [[c8User]] } emptyStore
        (str "alice") true =
      (some c8User, { emptyStore with users := [c8User] })) ∧
    (get_conversation_by_name
        { defaultEnv with conversationsPages := [[⟨str "C5", str "general"⟩]] }
        emptyStore (str "general") =
      (some ⟨str "C5", str "general"⟩,
       { emptyStore with conversations := [⟨str "C5", str "general"⟩] })) := by
  refine ⟨rfl, rfl, rfl, rfl⟩

/-! ## C9 — send-command destination validation -/

/-- Counterexample to C9: `channel` and `group` are both supplied (two
destinations) and `to` is not, yet the command does not abort with the
caller error — it resolves the channel and sends the message.  The
destination guard at SlackV3.py:966 only fires when `to` is combined with
another destination. -/
theorem C9_counterexample_channel_and_group_sends :
    slack_send defaultEnv defaultParams
      { message := some (str "hi"), toUser := none, channel := some (str "general"),
        group := some (str "grp"), messageType := none, originalMessage := none,
        entry := none, ignoreAddURL := none, threadId := none, severity := none,
        blocks := none, entryObjectTags := none }
      (str "2021-01-01 00:00:00")
      { emptyStore with conversations := [⟨str "C9", str "general"⟩] } =
    .ok ({ emptyStore with conversations := [⟨str "C9", str "general"⟩] },
      [.postMessageB (str "C9") none (str "hi") [],
       .results (str "Message sent to Slack successfully.\nThread ID is: 100")]) := by
  rfl

/-- C9 amended: the caller error fires exactly for the combinations the
guard tests — whenever the user destination `to` is supplied together with
a channel or a group (and the message is not swallowed by the mirror-entry
early returns), the command aborts with `Only one destination can be
provided.`, mutating no state and sending nothing; supplying channel and
group together without `to` is not rejected. -/
theorem C9_amended_to_with_other_destination_aborts
    (env : Env) (params : Params) (args : SendArgs) (now : Str) (store : Store)
    (hmt : args.messageType.getD [] ≠ mirrorTypeConst)
    (hto : truthy (args.toUser.getD []) = true)
    (hother : truthy (args.channel.getD []) = true ∨ truthy (args.group.getD []) = true) :
    slack_send env params args now store =
      .error (str "Only one destination can be provided.", store, []) := by
  simp only [slack_send]
  rw [if_neg (fun hand => hmt hand.1), if_neg hmt]
  simp only [slackSendMain]
  rw [if_pos ?_]
  rcases hother with h | h
  · exact Or.inr (Or.inl ⟨hto, h⟩)
  · exact Or.inl ⟨hto, h⟩

/-- Witness for the amended C9: `to` and `channel` supplied together. -/
theorem C9_amended_witness :
    slack_send defaultEnv defaultParams
      { message := some (str "hi"), toUser := some (str "alice"),
        channel := some (str "general"), group := none, messageType := none,
        originalMessage := none, entry := none, ignoreAddURL := none,
        threadId := none, severity := none, blocks := none, entryObjectTags := none }
      (str "2021-01-01 00:00:00") emptyStore =
    .error (str "Only one destination can be provided.", emptyStore, []) :=
  C9_amended_to_with_other_destination_aborts defaultEnv defaultParams _ _ emptyStore
    (by decide) (by decide) (Or.inl (by decide))

/-! ## Lemmas about the keyed Context Store merge -/

theorem upsertByKey_not_contains {α : Type} {key : α → Str} {acc : List α} {x : α}
    (h : ∀ y ∈ acc, key y ≠ key x) : upsertByKey key acc x = acc ++ [x] := by
  unfold upsertByKey
  rw [if_neg]
  intro hc
  simp only [List.any_eq_true, decide_eq_true_eq] at hc
  obtain ⟨y, hy, he⟩ := hc
  exact h y hy he

theorem foldl_upsertByKey_append {α : Type} {key : α → Str} :
    ∀ (qs acc : List α), (∀ x ∈ qs, ∀ y ∈ acc, key y ≠ key x) →
      (qs.map key).Nodup → qs.foldl (upsertByKey key) acc = acc ++ qs := by
  intro qs
  induction qs with
  | nil => intro acc _ _; simp
  | cons q rest ih =>
    intro acc hdis hnd
    simp only [List.map_cons, List.nodup_cons] at hnd
    simp only [List.foldl_cons]
    rw [upsertByKey_not_contains (fun y hy => hdis q (by simp) y hy)]
    rw [ih (acc ++ [q]) ?_ hnd.2]
    · simp
    · intro x hx y hy
      rcases List.mem_append.mp hy with h | h
      · exact hdis x (by simp [hx]) y h
      · simp only [List.mem_singleton] at h
        subst h
        intro he
        exact hnd.1 (he ▸ List.mem_map_of_mem key hx)

theorem upsertByKey_cons {α : Type} {key : α → Str} {u x : α} {l : List α}
    (h : key x ≠ key u) :
    upsertByKey key (u :: l) x = u :: upsertByKey key l x := by
  unfold upsertByKey
  by_cases hc : l.any (fun y => key y = key x) = true
  · rw [if_pos, if_pos hc]
    · simp only [List.map_cons]
      rw [if_neg (Ne.symm h)]
    · simp only [List.any_cons, Bool.or_eq_true]
      exact Or.inr hc
  · rw [if_neg, if_neg hc]
    · simp
    · simp only [List.any_cons, Bool.or_eq_true, not_or]
      exact ⟨by simp [Ne.symm h], hc⟩

theorem foldl_upsertByKey_cons {α : Type} {key : α → Str} {u : α} :
    ∀ (rest l : List α), (∀ x ∈ rest, key x ≠ key u) →
      rest.foldl (upsertByKey key) (u :: l) = u :: rest.foldl (upsertByKey key) l := by
  intro rest
  induction rest with
  | nil => intro l _; simp
  | cons x rest' ih =>
    intro l h
    simp only [List.foldl_cons]
    rw [upsertByKey_cons (h x (by simp))]
    exact ih _ (fun y hy => h y (by simp [hy]))

theorem foldl_upsertByKey_replace {α : Type} {key : α → Str} :
    ∀ (upd acc : List α), acc.map key = upd.map key → (upd.map key).Nodup →
      upd.foldl (upsertByKey key) acc = upd := by
  intro upd
  induction upd with
  | nil =>
    intro acc h _
    have hacc : acc = [] := by
      cases acc with
      | nil => rfl
      | cons a l => simp at h
    simp [hacc]
  | cons u rest ih =>
    intro acc h hnd
    rcases acc with _ | ⟨a, acc'⟩
    · simp at h
    · simp only [List.map_cons, List.cons.injEq] at h
      obtain ⟨hk, htl⟩ := h
      simp only [List.map_cons, List.nodup_cons] at hnd
      have hup : upsertByKey key (a :: acc') u = u :: acc' := by
        unfold upsertByKey
        rw [if_pos]
        · simp only [List.map_cons]
          rw [if_pos hk]
          congr 1
          have : ∀ y ∈ acc', (if key y = key u then u else y) = y := by
            intro y hy
            rw [if_neg]
            intro he
            exact hnd.1 (htl ▸ (he ▸ List.mem_map_of_mem key hy))
          calc acc'.map (fun y => if key y = key u then u else y)
              = acc'.map id := List.map_congr_left (fun y hy => by simpa using this y hy)
            _ = acc' := List.map_id acc'
        · simp only [List.any_cons, Bool.or_eq_true]
          exact Or.inl (by simp [hk])
      simp only [List.foldl_cons, hup]
      rw [foldl_upsertByKey_cons rest acc' ?_]
      · rw [ih acc' htl hnd.2]
      · intro x hx heq
        exact hnd.1 (heq ▸ List.mem_map_of_mem key hx)

theorem mergeByKey_update {α : Type} {key : α → Str} {isR : α → Bool} (orig upd : List α)
    (hmap : orig.map key = upd.map key) (hnd : (orig.map key).Nodup) :
    mergeByKey key isR orig upd = upd.filter (fun x => ¬ isR x) := by
  unfold mergeByKey
  rw [foldl_upsertByKey_append orig [] (by simp) hnd]
  simp only [List.nil_append]
  rw [foldl_upsertByKey_replace upd orig hmap (hmap ▸ hnd)]

theorem mergeByKey_append_one {α : Type} {key : α → Str} {isR : α → Bool}
    (orig : List α) (x : α)
    (hnd : (orig.map key).Nodup) (hnew : key x ∉ orig.map key)
    (hnr : ∀ y ∈ orig, isR y = false) (hxr : isR x = false) :
    mergeByKey key isR orig (orig ++ [x]) = orig ++ [x] := by
  unfold mergeByKey
  rw [foldl_upsertByKey_append orig [] (by simp) hnd]
  simp only [List.nil_append, List.foldl_append]
  rw [foldl_upsertByKey_replace orig orig rfl hnd]
  simp only [List.foldl_cons, List.foldl_nil]
  rw [upsertByKey_not_contains
    (fun y hy he => hnew (by rw [← he]; exact List.mem_map_of_mem key hy))]
  rw [List.filter_eq_self.mpr]
  intro y hy
  rcases List.mem_append.mp hy with h | h
  · simp [hnr y h]
  · simp only [List.mem_singleton] at h
    simp [h, hxr]

/-! ## Lemmas about the entitlement matcher: every match contains an `@` -/

theorem consumeHex_suffix : ∀ (n : Nat) (s t : Str), consumeHex n s = some t → t <:+ s := by
  intro n
  induction n with
  | zero =>
    intro s t h
    simp only [consumeHex, Option.some.injEq] at h
    exact h ▸ List.suffix_refl s
  | succ n ih =>
    intro s t h
    cases s with
    | nil => simp [consumeHex] at h
    | cons c rest =>
      simp only [consumeHex] at h
      split at h
      · exact (ih rest t h).trans (List.suffix_cons c rest)
      · cases h

theorem consumeChar_suffix : ∀ (c : Char) (s t : Str), consumeChar c s = some t → t <:+ s := by
  intro c s t h
  cases s with
  | nil => simp [consumeChar] at h
  | cons d rest =>
    simp only [consumeChar] at h
    split at h
    · injection h with h2
      subst h2
      exact List.suffix_cons d rest
    · cases h

theorem bind_suffix_step {g : Str → Option Str} (hg : ∀ a b, g a = some b → b <:+ a)
    {m : Option Str} {u : Str} (hm : ∀ v, m = some v → v <:+ u) :
    ∀ t, (m >>= g) = some t → t <:+ u := by
  intro t h
  rcases m with _ | v
  · rw [show ((none : Option Str) >>= g) = none from rfl] at h
    cases h
  · rw [show ((some v : Option Str) >>= g) = g v from rfl] at h
    exact (hg v t h).trans (hm v rfl)

theorem guidCore_suffix {s t : Str} (h : guidCore s = some t) : t <:+ s := by
  unfold guidCore at h
  have s0 : ∀ v, consumeHex 8 s = some v → v <:+ s :=
    fun v hv => consumeHex_suffix _ _ _ hv
  have s1 := bind_suffix_step (fun a b hb => consumeChar_suffix '-' a b hb) s0
  have s2 := bind_suffix_step (fun a b hb => consumeHex_suffix 4 a b hb) s1
  have s3 := bind_suffix_step (fun a b hb => consumeChar_suffix '-' a b hb) s2
  have s4 := bind_suffix_step (fun a b hb => consumeHex_suffix 4 a b hb) s3
  have s5 := bind_suffix_step (fun a b hb => consumeChar_suffix '-' a b hb) s4
  have s6 := bind_suffix_step (fun a b hb => consumeHex_suffix 4 a b hb) s5
  have s7 := bind_suffix_step (fun a b hb => consumeChar_suffix '-' a b hb) s6
  have s8 := bind_suffix_step (fun a b hb => consumeHex_suffix 12 a b hb) s7
  exact s8 t h

theorem openBraceCands_suffix {s t : Str} (h : t ∈ openBraceCands s) : t <:+ s := by
  cases s with
  | nil =>
    simp only [openBraceCands, List.mem_singleton] at h
    exact h ▸ List.suffix_refl _
  | cons c rest =>
    simp only [openBraceCands] at h
    by_cases hc : c = lbrace
    · rw [if_pos hc] at h
      rcases List.mem_cons.mp h with h | h
      · exact h ▸ List.suffix_cons c rest
      · simp only [List.mem_singleton] at h
        exact h ▸ List.suffix_refl _
    · rw [if_neg hc] at h
      simp only [List.mem_singleton] at h
      exact h ▸ List.suffix_refl _

theorem closeBraceCands_suffix {s t : Str} (h : t ∈ closeBraceCands s) : t <:+ s := by
  cases s with
  | nil =>
    simp only [closeBraceCands, List.mem_singleton] at h
    exact h ▸ List.suffix_refl _
  | cons c rest =>
    simp only [closeBraceCands] at h
    by_cases hc : c = rbrace
    · rw [if_pos hc] at h
      rcases List.mem_cons.mp h with h | h
      · exact h ▸ List.suffix_cons c rest
      · simp only [List.mem_singleton] at h
        exact h ▸ List.suffix_refl _
    · rw [if_neg hc] at h
      simp only [List.mem_singleton] at h
      exact h ▸ List.suffix_refl _

theorem guidCands_suffix {s t : Str} (h : t ∈ guidCands s) : t <:+ s := by
  unfold guidCands at h
  obtain ⟨g, hg, ht⟩ := List.mem_flatMap.mp h
  obtain ⟨o, ho, hcore⟩ := List.mem_filterMap.mp hg
  exact (closeBraceCands_suffix ht).trans
    ((guidCore_suffix hcore).trans (openBraceCands_suffix ho))

theorem plusCands_suffix {cls : Char → Bool} {s t : Str} (h : t ∈ plusCands cls s) :
    t <:+ s := by
  unfold plusCands at h
  obtain ⟨k, _, ht⟩ := List.mem_map.mp h
  exact ht ▸ List.drop_suffix _ _

theorem starCands_suffix {cls : Char → Bool} {s t : Str} (h : t ∈ starCands cls s) :
    t <:+ s := by
  unfold starCands at h
  obtain ⟨k, _, ht⟩ := List.mem_map.mp h
  exact ht ▸ List.drop_suffix _ _

theorem idCands_suffix {s t : Str} (h : t ∈ idCands s) : t <:+ s := by
  unfold idCands at h
  rcases List.mem_append.mp h with h | h
  · exact guidCands_suffix h
  · exact plusCands_suffix h

theorem taskCands_suffix {s t : Str} (h : t ∈ taskCands s) : t <:+ s := by
  cases s with
  | nil =>
    simp only [taskCands, List.mem_singleton] at h
    exact h ▸ List.suffix_refl _
  | cons c rest =>
    simp only [taskCands] at h
    by_cases hc : c = '|'
    · rw [if_pos hc] at h
      rcases List.mem_append.mp h with h | h
      · exact (plusCands_suffix h).trans (List.suffix_cons c rest)
      · simp only [List.mem_singleton] at h
        exact h ▸ List.suffix_refl _
    · rw [if_neg hc] at h
      simp only [List.mem_singleton] at h
      exact h ▸ List.suffix_refl _

theorem entCandidates_structure {s t : Str} (h : t ∈ entCandidates s) :
    ∃ p g', s = p ++ '@' :: g' ∧ t.length ≤ g'.length := by
  unfold entCandidates at h
  obtain ⟨u3, hu3, ht⟩ := List.mem_flatMap.mp h
  obtain ⟨u2, hu2, hu3'⟩ := List.mem_flatMap.mp hu3
  obtain ⟨u1, hu1, hu2'⟩ := List.mem_flatMap.mp hu2
  obtain ⟨g, hg, hcons⟩ := List.mem_filterMap.mp hu1
  have hg2 : g = '@' :: u1 := by
    cases g with
    | nil => simp [consumeChar] at hcons
    | cons d rest =>
      simp only [consumeChar] at hcons
      split at hcons
      · cases hcons
        rename_i hd
        rw [hd]
      · cases hcons
  obtain ⟨p, hp⟩ := guidCands_suffix hg
  refine ⟨p, u1, by rw [← hp, hg2], ?_⟩
  have l1 : u2 <:+ u1 := idCands_suffix hu2'
  have l2 : u3 <:+ u2 := starCands_suffix hu3'
  have l3 : t <:+ u3 := taskCands_suffix ht
  exact ((l3.trans l2).trans l1).length_le

theorem entMatchAt_take_contains_at {s : Str} {n : Nat} (h : entMatchAt s = some n) :
    '@' ∈ s.take n := by
  unfold entMatchAt at h
  obtain ⟨t, ht, hn⟩ := List.exists_of_findSome?_eq_some h
  obtain ⟨p, g', hs, hlen⟩ := entCandidates_structure ht
  have hnval : n = s.length - t.length := by
    simp only at hn
    split at hn
    · split at hn
      · cases hn; rfl
      · cases hn
    · cases hn
  have hslen : s.length = p.length + 1 + g'.length := by
    rw [hs]; simp; omega
  have hge : p.length + 1 ≤ n := by omega
  rw [hs, List.take_append_eq_append_take]
  apply List.mem_append_right
  have : 1 ≤ n - p.length := by omega
  cases hm : n - p.length with
  | zero => omega
  | succ m =>
    rw [List.take_succ_cons]
    exact List.mem_cons_self _ _

theorem reSearchEntitlement_contains_at :
    ∀ {text tok : Str}, reSearchEntitlement text = some tok → '@' ∈ tok := by
  intro text
  induction text with
  | nil => intro tok h; simp [reSearchEntitlement, reSearchEntitlementAux] at h
  | cons c rest ih =>
    intro tok h
    simp only [reSearchEntitlement, reSearchEntitlementAux] at h
    cases hm : entMatchAt (c :: rest) with
    | none =>
      rw [hm] at h
      exact ih (by simpa [reSearchEntitlement] using h)
    | some n =>
      rw [hm] at h
      cases h
      exact entMatchAt_take_contains_at hm

theorem splitOnChar_length_ge_two {s : Str} (h : '@' ∈ s) :
    ∃ a b rest, splitOnChar '@' s = a :: b :: rest := by
  induction s with
  | nil => simp at h
  | cons c cs ih =>
    rcases List.mem_cons.mp h with h | h
    · obtain ⟨p, ps, hps⟩ : ∃ p ps, splitOnChar '@' cs = p :: ps := by
        cases hsp : splitOnChar '@' cs with
        | nil => exact absurd hsp (splitOnChar_ne_nil _ _)
        | cons p ps => exact ⟨p, ps, rfl⟩
      refine ⟨[], p, ps, ?_⟩
      simp only [splitOnChar, hps]
      rw [if_pos h.symm]
    · obtain ⟨a, b, r, hab⟩ := ih h
      by_cases hc : c = '@'
      · refine ⟨[], a, b :: r, ?_⟩
        simp only [splitOnChar, hab]
        rw [if_pos hc]
      · refine ⟨c :: a, b, r, ?_⟩
        simp only [splitOnChar, hab]
        rw [if_neg hc]

theorem extract_entitlement_isSome {ent text : Str} (h : '@' ∈ ent) :
    ∃ content guid incident_id task_id,
      extract_entitlement ent text = some (content, guid, incident_id, task_id) := by
  obtain ⟨a, b, r, hab⟩ := splitOnChar_length_ge_two h
  obtain ⟨p, ps, hps⟩ : ∃ p ps, splitOnChar '|' b = p :: ps := by
    cases hsp : splitOnChar '|' b with
    | nil => exact absurd hsp (splitOnChar_ne_nil _ _)
    | cons p ps => exact ⟨p, ps, rfl⟩
  refine ⟨pyReplaceFirst ent text, a, p, ?_, ?_⟩
  · exact match ps with | [] => [] | t :: _ => t
  · simp only [extract_entitlement, hab, hps]
    cases ps <;> rfl

/-! ## Lemmas about question removal -/

theorem markFirstQuestionRemove_map_entitlement (th : Str) :
    ∀ qs : List Question,
      (markFirstQuestionRemove th qs).map (fun q => q.entitlement) =
        qs.map (fun q => q.entitlement) := by
  intro qs
  induction qs with
  | nil => rfl
  | cons q rest ih =>
    simp only [markFirstQuestionRemove]
    by_cases h : q.thread = th
    · rw [if_pos h]
      simp
    · rw [if_neg h]
      simp [ih]

theorem filter_markFirstQuestionRemove (th : Str) :
    ∀ qs : List Question, (∀ q ∈ qs, q.remove = false) →
      (markFirstQuestionRemove th qs).filter (fun q => ¬ q.remove) =
        qs.eraseP (fun q => q.thread = th) := by
  intro qs
  induction qs with
  | nil => intro _; rfl
  | cons q rest ih =>
    intro hnr
    simp only [markFirstQuestionRemove]
    by_cases h : q.thread = th
    · rw [if_pos h, List.eraseP_cons_of_pos (by simp [h])]
      rw [List.filter_cons_of_neg (by simp)]
      exact List.filter_eq_self.mpr (fun a ha => by simp [hnr a (by simp [ha])])
    · rw [if_neg h, List.eraseP_cons_of_neg (by simp [h]),
        List.filter_cons_of_pos (by simp [hnr q (by simp)])]
      rw [ih (fun a ha => hnr a (by simp [ha]))]

/-- Persisting the mutated questions list equals dropping the first
question of the thread: the keyed merge keeps every question in place and
the removal flag deletes the marked one. -/
theorem setQuestions_resolve (store : Store) (th : Str)
    (hnr : ∀ q ∈ store.questions, q.remove = false)
    (hkeys : (store.questions.map (fun q => q.entitlement)).Nodup) :
    store.setQuestions (markFirstQuestionRemove th store.questions) =
      { store with questions := store.questions.eraseP (fun q => q.thread = th) } := by
  unfold Store.setQuestions
  congr 1
  rw [mergeByKey_update _ _ (markFirstQuestionRemove_map_entitlement th _).symm hkeys]
  exact filter_markFirstQuestionRemove th store.questions hnr

theorem find?_eraseP_of_le_one {α : Type} (p : α → Bool) :
    ∀ l : List α, (l.filter p).length ≤ 1 → (l.eraseP p).find? p = none := by
  intro l
  induction l with
  | nil => intro _; rfl
  | cons a l ih =>
    intro h
    by_cases hp : p a = true
    · rw [List.eraseP_cons_of_pos hp]
      rw [List.filter_cons_of_pos hp, List.length_cons] at h
      have hl : l.filter p = [] := List.length_eq_zero.mp (by omega)
      rw [List.find?_eq_none]
      intro x hx
      exact (List.filter_eq_nil.mp hl) x hx
    · rw [List.eraseP_cons_of_neg (by simpa using hp)]
      rw [List.filter_cons_of_neg (by simpa using hp)] at h
      rw [List.find?_cons_of_neg _ (by simpa using hp)]
      exact ih h

/-! ## Shared facts about `check_and_handle_entitlement` -/

/-- Branch (a): an in-text entitlement match resolves directly from the ids
embedded in the text, replies with the fixed acknowledgment, and leaves the
store untouched. -/
theorem check_and_handle_inText (text : Str) (user : SlackUser) (thread_id : Option Str)
    (store : Store) (tok : Str) (hre : reSearchEntitlement text = some tok) :
    ∃ content guid incident_id task_id,
      extract_entitlement tok text = some (content, guid, incident_id, task_id) ∧
      check_and_handle_entitlement text user thread_id store =
        .ok (some thanksReply, store,
          [.resolved incident_id guid user.email content task_id]) := by
  obtain ⟨content, guid, iid, tid, hex⟩ :=
    @extract_entitlement_isSome _ text (reSearchEntitlement_contains_at hre)
  refine ⟨content, guid, iid, tid, hex, ?_⟩
  simp only [check_and_handle_entitlement, hre, hex]

/-- Branch (b): with no in-text match and a matching open question in the
thread, the question's stored entitlement is resolved, the stored reply is
returned, and the question is removed from the persisted store. -/
theorem check_and_handle_threaded (text : Str) (user : SlackUser) (th : Str)
    (store : Store) (q : Question)
    (hre : reSearchEntitlement text = none) (hth : th ≠ [])
    (hfind : store.questions.find? (fun q' => q'.thread = th) = some q)
    (hwfq : '@' ∈ q.entitlement)
    (hnr : ∀ q' ∈ store.questions, q'.remove = false)
    (hkeys : (store.questions.map (fun q' => q'.entitlement)).Nodup) :
    ∃ content guid incident_id task_id,
      extract_entitlement q.entitlement text = some (content, guid, incident_id, task_id) ∧
      check_and_handle_entitlement text user (some th) store =
        .ok (questionReply q,
          { store with questions := store.questions.eraseP (fun q' => q'.thread = th) },
          [.resolved incident_id guid user.email content task_id]) := by
  obtain ⟨content, guid, iid, tid, hex⟩ :=
    @extract_entitlement_isSome _ text hwfq
  refine ⟨content, guid, iid, tid, hex, ?_⟩
  have hne : store.questions ≠ [] := by
    intro he
    rw [he] at hfind
    cases hfind
  simp only [check_and_handle_entitlement, hre]
  rw [if_pos ⟨hne, hth⟩]
  simp only [hfind, hex]
  rw [setQuestions_resolve store th hnr hkeys]

/-- Branch (c): with no in-text match and no matching open question, no
entitlement action occurs and the empty reply is returned. -/
theorem check_and_handle_no_question (text : Str) (user : SlackUser)
    (thread_id : Option Str) (store : Store)
    (hre : reSearchEntitlement text = none)
    (hcond : thread_id = none ∨ ∃ th, thread_id = some th ∧
      (th = [] ∨ store.questions.find? (fun q' => q'.thread = th) = none)) :
    check_and_handle_entitlement text user thread_id store = .ok (some [], store, []) := by
  rcases hcond with h | ⟨th, hth, hcase⟩
  · subst h
    simp only [check_and_handle_entitlement, hre]
  · subst hth
    simp only [check_and_handle_entitlement, hre]
    by_cases hcnd : store.questions ≠ [] ∧ th ≠ []
    · rw [if_pos hcnd]
      rcases hcase with h | h
      · exact absurd h hcnd.2
      · simp only [h]
    · rw [if_neg hcnd]

/-! ## C3 — resolution precedence -/

/-- C3: for every inbound plain message, `check_and_handle_entitlement`
resolves with this precedence, on any store in persisted form (no removal
flags, distinct entitlement keys, stored entitlements containing `@`):
(a) an in-text entitlement match resolves directly from the ids embedded in
the text, replies with the fixed acknowledgment and keeps the store;
(b) otherwise a thread with a matching open Question resolves the
Question's stored entitlement, replies with the Question's stored reply
(its stored value, with the fixed default only for a missing key) and
removes the Question from the persisted store;
(c) otherwise no entitlement action occurs and the empty reply is
returned with the store unchanged. -/
theorem C3_resolution_precedence (text : Str) (user : SlackUser)
    (thread_id : Option Str) (store : Store)
    (hnr : ∀ q ∈ store.questions, q.remove = false)
    (hkeys : (store.questions.map (fun q => q.entitlement)).Nodup)
    (hwf : ∀ q ∈ store.questions, '@' ∈ q.entitlement) :
    (∀ tok, reSearchEntitlement text = some tok →
      ∃ content guid incident_id task_id,
        extract_entitlement tok text = some (content, guid, incident_id, task_id) ∧
        check_and_handle_entitlement text user thread_id store =
          .ok (some thanksReply, store,
            [.resolved incident_id guid user.email content task_id])) ∧
    (reSearchEntitlement text = none →
      ∀ th q, thread_id = some th → th ≠ [] →
        store.questions.find? (fun q' => q'.thread = th) = some q →
        ∃ content guid incident_id task_id,
          extract_entitlement q.entitlement text =
            some (content, guid, incident_id, task_id) ∧
          check_and_handle_entitlement text user thread_id store =
            .ok (questionReply q,
              { store with questions :=
                  store.questions.eraseP (fun q' => q'.thread = th) },
              [.resolved incident_id guid user.email content task_id])) ∧
    (reSearchEntitlement text = none →
      (thread_id = none ∨ ∃ th, thread_id = some th ∧
        (th = [] ∨ store.questions.find? (fun q' => q'.thread = th) = none)) →
      check_and_handle_entitlement text user thread_id store =
        .ok (some [], store, [])) := by
  refine ⟨?_, ?_, ?_⟩
  · intro tok hre
    exact check_and_handle_inText text user thread_id store tok hre
  · intro hre th q hthid hth hfind
    subst hthid
    exact check_and_handle_threaded text user th store q hre hth hfind
      (hwf q (List.mem_of_find?_eq_some hfind)) hnr hkeys
  · intro hre hcond
    exact check_and_handle_no_question text user thread_id store hre hcond

/-- Witness for C3, branch (a) at a concrete in-text entitlement. -/
theorem C3_resolution_precedence_witness :
    check_and_handle_entitlement
      (str "ok 12345678-9abc-def0-1234-56789abcdef0@5|2 go")
      { id := str "U1", name := str "alice", real_name := str "Alice",
        email := some (str "a@x.co") }
      (some (str "111")) emptyStore =
    .ok (some thanksReply, emptyStore,
      [.resolved (str "5") (str "12345678-9abc-def0-1234-56789abcdef0")
        (some (str "a@x.co")) (str "ok  go") (str "2")]) := by
  have h := (C3_resolution_precedence
    (str "ok 12345678-9abc-def0-1234-56789abcdef0@5|2 go")
    { id := str "U1", name := str "alice", real_name := str "Alice",
      email := some (str "a@x.co") }
    (some (str "111")) emptyStore (by simp [emptyStore]) (by simp [emptyStore])
    (by simp [emptyStore])).1
    (str "12345678-9abc-def0-1234-56789abcdef0@5|2") (by decide)
  obtain ⟨c, g, i, tk, hex, hck⟩ := h
  have hval : extract_entitlement (str "12345678-9abc-def0-1234-56789abcdef0@5|2")
      (str "ok 12345678-9abc-def0-1234-56789abcdef0@5|2 go") =
      some (str "ok  go", str "12345678-9abc-def0-1234-56789abcdef0", str "5", str "2") := by
    decide
  rw [hval] at hex
  cases hex
  exact hck

/-! ## C2 — single-shot question resolution -/

/-- C2: resolution is single-shot.  On a persisted store in which at most
one question matches the thread (the at-most-one-active invariant), a first
threaded reply resolves and removes the matched question; after the
persisted removal no question matches the thread any more, and a second
reply in the same thread (with no in-text entitlement of its own) matches
no Question, triggers no entitlement resolution, and leaves the store
unchanged. -/
theorem C2_single_shot_resolution
    (text1 text2 : Str) (user1 user2 : SlackUser) (th : Str) (store : Store)
    (hth : th ≠ [])
    (hnr : ∀ q ∈ store.questions, q.remove = false)
    (hkeys : (store.questions.map (fun q => q.entitlement)).Nodup)
    (hwf : ∀ q ∈ store.questions, '@' ∈ q.entitlement)
    (huniq : (store.questions.filter (fun q => q.thread = th)).length ≤ 1)
    (hno1 : reSearchEntitlement text1 = none)
    (hno2 : reSearchEntitlement text2 = none)
    (q : Question)
    (hfind : store.questions.find? (fun q' => q'.thread = th) = some q) :
    ∃ content guid incident_id task_id,
      check_and_handle_entitlement text1 user1 (some th) store =
        .ok (questionReply q,
          { store with questions := store.questions.eraseP (fun q' => q'.thread = th) },
          [.resolved incident_id guid user1.email content task_id]) ∧
      (store.questions.eraseP (fun q' => q'.thread = th)).find?
          (fun q' => q'.thread = th) = none ∧
      check_and_handle_entitlement text2 user2 (some th)
          { store with questions := store.questions.eraseP (fun q' => q'.thread = th) } =
        .ok (some [],
          { store with questions := store.questions.eraseP (fun q' => q'.thread = th) },
          []) := by
  obtain ⟨content, guid, iid, tid, _, hck⟩ :=
    check_and_handle_threaded text1 user1 th store q hno1 hth hfind
      (hwf q (List.mem_of_find?_eq_some hfind)) hnr hkeys
  have hgone : (store.questions.eraseP (fun q' => q'.thread = th)).find?
      (fun q' => q'.thread = th) = none :=
    find?_eraseP_of_le_one _ store.questions huniq
  refine ⟨content, guid, iid, tid, hck, hgone, ?_⟩
  exact check_and_handle_no_question text2 user2 (some th) _ hno2
    (Or.inr ⟨th, rfl, Or.inr hgone⟩)

/-- Witness for C2, at a store holding one open question for thread `111`. -/
theorem C2_single_shot_resolution_witness :
    ∃ content guid incident_id task_id,
      check_and_handle_entitlement (str "approve")
          { id := str "U1", name := str "alice", real_name := str "Alice",
            email := some (str "a@x.co") }
          (some (str "111"))
          { emptyStore with questions :=
              [{ thread := str "111", entitlement := str "abc@77|3",
                 reply := some (some (str "done")), expiry := some [],
                 sent := str "2021-01-01 00:00:00", default_response := some [],
                 remove := false }] } =
        .ok (some (str "done"), emptyStore,
          [.resolved incident_id guid (some (str "a@x.co")) content task_id]) ∧
      check_and_handle_entitlement (str "again")
          { id := str "U2", name := str "bob", real_name := str "Bob", email := none }
          (some (str "111")) emptyStore =
        .ok (some [], emptyStore, []) := by
  have h := C2_single_shot_resolution (str "approve") (str "again")
    { id := str "U1", name := str "alice", real_name := str "Alice",
      email := some (str "a@x.co") }
    { id := str "U2", name := str "bob", real_name := str "Bob", email := none }
    (str "111")
    { emptyStore with questions :=
        [{ thread := str "111", entitlement := str "abc@77|3",
           reply := some (some (str "done")), expiry := some [],
           sent := str "2021-01-01 00:00:00", default_response := some [],
           remove := false }] }
    (by decide) (by decide) (by decide) (by decide) (by decide)
    (by decide) (by decide)
    { thread := str "111", entitlement := str "abc@77|3",
      reply := some (some (str "done")), expiry := some [],
      sent := str "2021-01-01 00:00:00", default_response := some [],
      remove := false }
    (by decide)
  obtain ⟨content, guid, iid, tid, h1, _, h3⟩ := h
  exact ⟨content, guid, iid, tid, h1, h3⟩

/-! ## C7 — bot-originated echoes and the order of the bot check -/

/-- Every effect `check_and_handle_entitlement` emits is a resolution. -/
theorem check_and_handle_effects {text : Str} {user : SlackUser} {thread : Option Str}
    {store : Store} {r : Option Str} {s1 : Store} {effs : List Effect}
    (h : check_and_handle_entitlement text user thread store = .ok (r, s1, effs)) :
    ∀ e ∈ effs, ∃ i g em c t, e = Effect.resolved i g em c t := by
  unfold check_and_handle_entitlement at h
  split at h
  · split at h
    · cases h
    · cases h
      intro e he
      simp only [List.mem_singleton] at he
      exact ⟨_, _, _, _, _, he⟩
  · split at h
    · cases h
      intro e he
      simp at he
    · split at h
      · split at h
        · split at h
          · cases h
          · cases h
            intro e he
            simp only [List.mem_singleton] at he
            exact ⟨_, _, _, _, _, he⟩
        · cases h
          intro e he
          simp at he
      · cases h
        intro e he
        simp at he

/-- For a plain (non-action) message, `processTry` runs the user lookup and
entitlement resolution first and only then the bot check: a bot-flagged
event keeps the resolution's store and effects but produces nothing else. -/
theorem processTry_bot_message (env : Env) (params : Params) (ev : SMEvent) (store : Store)
    (hbot : ev.subtype = str "bot_message" ∨ truthy ev.message_bot_id = true ∨
      ev.message_subtype = str "bot_message")
    (hmsg : ev.actions = []) :
    processTry env params ev store =
      (match get_user_by_id_async store ev.user_id with
       | .error e => .error (e, store, [])
       | .ok u =>
         match check_and_handle_entitlement ev.text u ev.thread store with
         | .error e => .error (e, store, [])
         | .ok rse => .ok (rse.2.1, rse.2.2)) := by
  unfold processTry
  simp only [hmsg]
  cases hu : get_user_by_id_async store ev.user_id with
  | error e => simp only [hu]
  | ok u =>
    simp only [hu]
    cases hc : check_and_handle_entitlement ev.text u ev.thread store with
    | error e => simp only [hc]
    | ok rse =>
      simp only [hc]
      rcases rse with ⟨r, store1, effs⟩
      simp only []
      rw [if_pos hbot]

/-- Counterexample to C7: a message flagged as a bot echo (subtype
`bot_message`) whose sender is cached and whose thread matches an open
question is NOT discarded before entitlement resolution: the dispatcher
resolves the entitlement, consumes (removes) the question and persists the
smaller store — only the reply/DM/relay outputs are suppressed. -/
theorem C7_counterexample_bot_echo_resolves :
    process defaultEnv defaultParams
      { dataType := str "events", errorCode := [], errorMsg := [],
        subtype := str "bot_message", text := str "approve", user_id := str "U1",
        channel := str "C1", message_bot_id := [], thread := some (str "111"),
        message_subtype := [], actions := [], action_channel := [], action_user_id := [] }
      { emptyStore with
        users := [{ id := str "U1", name := str "bot", real_name := str "Bot",
                    email := some (str "b@x.co") }],
        questions := [{ thread := str "111", entitlement := str "abc@77|3",
                        reply := some (some (str "done")), expiry := some [],
                        sent := str "t0", default_response := some [], remove := false }] } =
    ({ emptyStore with
        users := [{ id := str "U1", name := str "bot", real_name := str "Bot",
                    email := some (str "b@x.co") }],
        questions := [] },
     [.resolved (str "77") (str "abc") (some (str "b@x.co")) (str "approve") (str "3")]) := by
  rfl

/-- C7 amended: the bot-echo check runs only after entitlement resolution.
A bot-flagged plain message still goes through the user lookup and
entitlement resolution — which can resolve an entitlement and consume a
Question, mutating the store — but the check suppresses every output: the
dispatcher emits no reply, no direct-message response, no case note, no
channel call; only resolution effects and health/error reports can occur
(first conjunct), and when lookup and resolution succeed the dispatcher
returns exactly the resolution's store and effects (second conjunct). -/
theorem C7_amended_bot_check_after_resolution (env : Env) (params : Params)
    (ev : SMEvent) (store : Store)
    (hbot : ev.subtype = str "bot_message" ∨ truthy ev.message_bot_id = true ∨
      ev.message_subtype = str "bot_message")
    (hmsg : ev.actions = []) (hnoterr : ev.dataType ≠ str "error") :
    (∀ e ∈ (process env params ev store).2,
      (∃ i g em c t, e = Effect.resolved i g em c t) ∨
      (∃ m, e = Effect.health m) ∨ (∃ m, e = Effect.errorLog m)) ∧
    (∀ u r store1 effs, get_user_by_id_async store ev.user_id = .ok u →
      check_and_handle_entitlement ev.text u ev.thread store = .ok (r, store1, effs) →
      process env params ev store = (store1, effs)) := by
  have hpt := processTry_bot_message env params ev store hbot hmsg
  constructor
  · intro e he
    unfold process at he
    rw [if_neg hnoterr, hpt] at he
    cases hu : get_user_by_id_async store ev.user_id with
    | error err =>
      simp only [hu, List.nil_append, handle_listen_error] at he
      rcases List.mem_cons.mp he with he | he
      · exact Or.inr (Or.inr ⟨_, he⟩)
      · simp only [List.mem_singleton] at he
        exact Or.inr (Or.inl ⟨_, he⟩)
    | ok u =>
      simp only [hu] at he
      cases hc : check_and_handle_entitlement ev.text u ev.thread store with
      | error err =>
        simp only [hc, List.nil_append, handle_listen_error] at he
        rcases List.mem_cons.mp he with he | he
        · exact Or.inr (Or.inr ⟨_, he⟩)
        · simp only [List.mem_singleton] at he
          exact Or.inr (Or.inl ⟨_, he⟩)
      | ok rse =>
        simp only [hc] at he
        rcases rse with ⟨r, store1, effs⟩
        exact Or.inl (check_and_handle_effects hc e he)
  · intro u r store1 effs hu hc
    unfold process
    rw [if_neg hnoterr, hpt]
    simp only [hu, hc]

/-- Witness for the amended C7, applying the second conjunct at a concrete
bot-flagged message (flagged via `bot_id` this time). -/
theorem C7_amended_bot_check_after_resolution_witness :
    process defaultEnv defaultParams
      { dataType := str "events", errorCode := [], errorMsg := [],
        subtype := [], text := str "deny", user_id := str "U3",
        channel := str "C1", message_bot_id := str "B9", thread := some (str "222"),
        message_subtype := [], actions := [], action_channel := [], action_user_id := [] }
      { emptyStore with
        users := [{ id := str "U3", name := str "bot3", real_name := str "Bot3",
                    email := none }],
        questions := [{ thread := str "222", entitlement := str "zz@8",
                        reply := some none, expiry := some [],
                        sent := str "t0", default_response := some [], remove := false }] } =
    ({ emptyStore with
        users := [{ id := str "U3", name := str "bot3", real_name := str "Bot3",
                    email := none }],
        questions := [] },
     [.resolved (str "8") (str "zz") none (str "deny") []]) :=
  (C7_amended_bot_check_after_resolution defaultEnv defaultParams _ _
    (Or.inr (Or.inl (by decide))) rfl (by decide)).2
    { id := str "U3", name := str "bot3", real_name := str "Bot3", email := none }
    none _ _ rfl rfl

/-! ## C4 — chat-to-case relay over the mirrors bound to a channel -/

/-- A mirror the relay loop is willing to relay to: the loop aborts (with
`return`) at the first mirror whose direction is `FromDemisto` or whose
type is `none`. -/
def relayEligible (m : Mirror) : Bool :=
  ¬ (m.mirror_direction = str "FromDemisto" ∨ m.mirror_type = str "none")

/-- The effects one relay-loop iteration produces for a mirror it relays
to: the lazy-activation registration when the mirror is not yet activated
and fully specified, then the case-note append. -/
def relayStepEffects (env : Env) (store : Store) (text : Str) (user : PyDict)
    (m : Mirror) : List Effect :=
  (if ¬ m.mirrored ∧ truthy m.mirror_to ∧ truthy m.mirror_direction ∧ truthy m.mirror_type
   then [Effect.mirrorInv m.investigation_id
          (m.mirror_type ++ str ":" ++ m.mirror_direction) m.auto_close]
   else []) ++ handle_text env store m.investigation_id text user

/-- The relay loop processes exactly the longest all-eligible prefix of the
channel's mirrors, emitting activation and case-note effects per mirror,
and reports whether it aborted at an ineligible mirror. -/
theorem processMirrorLoop_takeWhile (env : Env) (text : Str) (user : PyDict) :
    ∀ (fl : List Mirror) (mirrors : List Mirror) (store : Store) (effs : List Effect),
      fl.Nodup → (∀ n ∈ fl, ¬ n.mirrored = true → n ∈ mirrors) →
      ∃ store' : Store,
        processMirrorLoop env text user fl mirrors store effs =
          .ok (store',
            effs ++ (fl.takeWhile relayEligible).flatMap
              (relayStepEffects env store text user),
            !fl.all relayEligible) := by
  intro fl
  induction fl with
  | nil =>
    intro mirrors store effs _ _
    exact ⟨store, by simp [processMirrorLoop]⟩
  | cons m rest ih =>
    intro mirrors store effs hnd hsub
    simp only [List.nodup_cons] at hnd
    by_cases helig : relayEligible m = true
    · have hcond : ¬ (m.mirror_direction = str "FromDemisto" ∨ m.mirror_type = str "none") := by
        simpa [relayEligible] using helig
      have htw : (m :: rest).takeWhile relayEligible =
          m :: rest.takeWhile relayEligible := by
        rw [List.takeWhile_cons_of_pos helig]
      have hall : (!(m :: rest).all relayEligible) = (!rest.all relayEligible) := by
        simp [List.all_cons, helig]
      by_cases hmir : m.mirrored = true
      · obtain ⟨store', hrec⟩ := ih mirrors store
          (effs ++ handle_text env store m.investigation_id text user) hnd.2
          (fun n hn => hsub n (by simp [hn]))
        refine ⟨store', ?_⟩
        simp only [processMirrorLoop]
        rw [if_neg hcond, if_neg (by simpa using hmir), hrec, htw, hall]
        simp [relayStepEffects, hmir]
      · have hcont : m ∈ mirrors := hsub m (by simp) (by simpa using hmir)
        by_cases hset : truthy m.mirror_to = true ∧ truthy m.mirror_direction = true ∧
            truthy m.mirror_type = true
        · have hsub2 : ∀ n ∈ rest, ¬ n.mirrored = true →
              n ∈ (mirrors.erase m) ++ [{ m with mirrored := true }] := by
            intro n hn hnm
            have hne : n ≠ m := fun he => hnd.1 (he ▸ hn)
            have : n ∈ mirrors := hsub n (by simp [hn]) hnm
            exact List.mem_append_left _ ((List.mem_erase_of_ne hne).mpr this)
          obtain ⟨store', hrec⟩ := ih
            ((mirrors.erase m) ++ [{ m with mirrored := true }])
            (store.setMirrors ((mirrors.erase m) ++ [{ m with mirrored := true }]))
            (effs ++
              [Effect.mirrorInv m.investigation_id
                (m.mirror_type ++ str ":" ++ m.mirror_direction) m.auto_close] ++
              handle_text env
                (store.setMirrors ((mirrors.erase m) ++ [{ m with mirrored := true }]))
                m.investigation_id text user)
            hnd.2 hsub2
          refine ⟨store', ?_⟩
          simp only [processMirrorLoop]
          rw [if_neg hcond, if_pos (by simpa using hmir),
            if_pos (List.elem_iff.mpr hcont), if_pos hset]
          rw [hrec, htw, hall]
          have hht : handle_text env
              (store.setMirrors ((mirrors.erase m) ++ [{ m with mirrored := true }]))
              m.investigation_id text user =
              handle_text env store m.investigation_id text user := rfl
          have hstep : relayStepEffects env
              (store.setMirrors ((mirrors.erase m) ++ [{ m with mirrored := true }]))
              text user = relayStepEffects env store text user :=
            funext (fun _ => rfl)
          rw [hht, hstep]
          have hstepm : relayStepEffects env store text user m =
              [Effect.mirrorInv m.investigation_id
                (m.mirror_type ++ str ":" ++ m.mirror_direction) m.auto_close] ++
              handle_text env store m.investigation_id text user := by
            unfold relayStepEffects
            rw [if_pos ⟨by simpa using hmir, hset.1, hset.2.1, hset.2.2⟩]
          simp only [List.flatMap_cons, hstepm, List.append_assoc]
        · have hsub2 : ∀ n ∈ rest, ¬ n.mirrored = true → n ∈ mirrors.erase m := by
            intro n hn hnm
            have hne : n ≠ m := fun he => hnd.1 (he ▸ hn)
            exact (List.mem_erase_of_ne hne).mpr (hsub n (by simp [hn]) hnm)
          obtain ⟨store', hrec⟩ := ih (mirrors.erase m) store
            (effs ++ handle_text env store m.investigation_id text user) hnd.2 hsub2
          refine ⟨store', ?_⟩
          simp only [processMirrorLoop]
          rw [if_neg hcond, if_pos (by simpa using hmir),
            if_pos (List.elem_iff.mpr hcont), if_neg hset]
          rw [hrec, htw, hall]
          have hstepm : relayStepEffects env store text user m =
              handle_text env store m.investigation_id text user := by
            unfold relayStepEffects
            rw [if_neg (fun hcc => hset hcc.2)]
            simp
          simp only [List.flatMap_cons, hstepm, List.append_assoc]
    · have hcond : m.mirror_direction = str "FromDemisto" ∨ m.mirror_type = str "none" := by
        by_contra hc
        exact helig (by simpa [relayEligible] using hc)
      refine ⟨store, ?_⟩
      simp only [processMirrorLoop]
      rw [if_pos hcond]
      rw [List.takeWhile_cons_of_neg (by simpa using helig)]
      simp [List.all_cons, Bool.eq_false_iff.mpr helig]

/-- The sender's cached user record for the C4 scenarios. -/
def c4sender : SlackUser :=
  { id := str "U1", name := str "alice", real_name := str "Alice", email := none }

/-- A mirror at which the relay loop `return`s: direction `FromDemisto`. -/
def c4mBlock : Mirror :=
  { channel_id := str "C1", channel_name := str "chan", investigation_id := str "7",
    mirror_type := str "all", mirror_direction := str "FromDemisto",
    mirror_to := str "group", auto_close := false, mirrored := true,
    channel_topic := none, remove := false }

/-- A fully relay-permitted, already-activated mirror on the same channel. -/
def c4mOk : Mirror :=
  { channel_id := str "C1", channel_name := str "chan", investigation_id := str "8",
    mirror_type := str "all", mirror_direction := str "Both",
    mirror_to := str "group", auto_close := false, mirrored := true,
    channel_topic := none, remove := false }

/-- A store binding both C4 mirrors to channel C1, with the sender cached. -/
def c4store : Store :=
  { mirrors := [c4mBlock, c4mOk], questions := [], users := [c4sender],
    conversations := [], bot_id := none }

/-- A plain channel message on C1 from the cached sender. -/
def c4ev : SMEvent :=
  { dataType := str "event", errorCode := [], errorMsg := [], subtype := [],
    text := str "hello", user_id := str "U1", channel := str "C1",
    message_bot_id := [], thread := none, message_subtype := [], actions := [],
    action_channel := [], action_user_id := [] }

/-- C4 counterexample: `c4mOk` is a non-removed, non-`none`-typed mirror on
the message channel whose direction permits chat-to-case flow, and relaying
to it would append a case note (fourth conjunct) — yet `process` emits no
effect at all, because the loop at SlackV3.py:579-580 executes `return` (not
`continue`) at the `FromDemisto` mirror listed before it, aborting the whole
handler.  This refutes "appends ... to every such mirror". -/
theorem C4_counterexample_relay_returns_at_ineligible_mirror :
    c4mOk ∈ c4store.mirrors ∧ relayEligible c4mOk = true ∧ c4mOk.remove = false ∧
    handle_text defaultEnv c4store c4mOk.investigation_id c4ev.text
      c4sender.toPyDict ≠ [] ∧
    process defaultEnv defaultParams c4ev c4store = (c4store, []) := by
  refine ⟨by decide, by decide, by decide, by decide, ?_⟩
  rfl

/-- C4 amended: on a plain (non-action, non-bot, non-DM) channel message
with no entitlement in the text and no open question on its thread, the
relay appends the case note — lazily activating a not-yet-activated fully
specified mirror first — to exactly the mirrors in the longest
all-relay-permitted PREFIX of the channel's mirror list, not to every
permitted mirror: the first `FromDemisto`-direction or `none`-type mirror
aborts the handler (also skipping the module-health reset appended only
when the whole list is processed). -/
theorem C4_amended_relay_longest_eligible_prefix (env : Env) (params : Params)
    (ev : SMEvent) (store : Store) (u : SlackUser) (c : Char) (crest : Str)
    (mf : List Mirror)
    (hdt : ev.dataType ≠ str "error")
    (hact : ev.actions = [])
    (hu : get_user_by_id_async store ev.user_id = .ok u)
    (hre : reSearchEntitlement ev.text = none)
    (hq : ev.thread = none ∨ ∃ th, ev.thread = some th ∧
      (th = [] ∨ store.questions.find? (fun q2 => q2.thread = th) = none))
    (hbot : ¬ (ev.subtype = str "bot_message" ∨ truthy ev.message_bot_id = true ∨
      ev.message_subtype = str "bot_message"))
    (hch : ev.channel = c :: crest) (hcD : ¬ c = 'D')
    (hnd : store.mirrors.Nodup)
    (hmf : store.mirrors.filter (fun m => m.channel_id = ev.channel) = mf) :
    ∃ store2 : Store,
      process env params ev store =
        (store2,
          if mf = [] then []
          else (mf.takeWhile relayEligible).flatMap
              (relayStepEffects env store ev.text u.toPyDict) ++
            (if mf.all relayEligible then [Effect.health []] else [])) := by
  subst hmf
  have hch2 := check_and_handle_no_question ev.text u ev.thread store hre hq
  simp only [process]
  rw [if_neg hdt]
  simp only [processTry, hact, hu, hch2]
  rw [if_neg hbot]
  rw [if_neg (by simp [truthyOpt, truthy])]
  simp only [hch]
  rw [if_neg (by simpa using hcD)]
  by_cases hmf0 : store.mirrors.filter (fun m => m.channel_id = c :: crest) = []
  · rw [if_pos hmf0, hmf0]
    exact ⟨store, by simp⟩
  · rw [if_neg hmf0]
    obtain ⟨store2, hrec⟩ := processMirrorLoop_takeWhile env ev.text u.toPyDict
      (store.mirrors.filter (fun m => m.channel_id = c :: crest)) store.mirrors store []
      (List.Nodup.filter _ hnd) (fun n hn _ => List.mem_of_mem_filter hn)
    rw [hrec]
    refine ⟨store2, ?_⟩
    rw [if_neg hmf0]
    by_cases hall : (store.mirrors.filter (fun m => m.channel_id = c :: crest)).all
        relayEligible = true
    · rw [hall]
      simp
    · rw [Bool.eq_false_iff.mpr hall]
      simp [hall]

/-- A not-yet-activated, fully specified, relay-permitted mirror for the C4
amended witness. -/
def c4wMirror : Mirror :=
  { channel_id := str "C1", channel_name := str "chan", investigation_id := str "9",
    mirror_type := str "all", mirror_direction := str "Both",
    mirror_to := str "group", auto_close := false, mirrored := false,
    channel_topic := none, remove := false }

/-- The store for the C4 amended witness. -/
def c4wstore : Store :=
  { mirrors := [c4wMirror], questions := [], users := [c4sender],
    conversations := [], bot_id := none }

/-- Witness for the C4 amended theorem at a concrete message and store: the
single fully specified mirror is the whole eligible prefix, so the handler
activates it, appends the note and resets module health. -/
theorem C4_amended_witness :
    ∃ store2 : Store,
      process defaultEnv defaultParams c4ev c4wstore =
        (store2,
          if [c4wMirror] = [] then []
          else ([c4wMirror].takeWhile relayEligible).flatMap
              (relayStepEffects defaultEnv c4wstore c4ev.text c4sender.toPyDict) ++
            (if [c4wMirror].all relayEligible then [Effect.health []] else [])) :=
  C4_amended_relay_longest_eligible_prefix defaultEnv defaultParams c4ev c4wstore
    c4sender 'C' (str "1") [c4wMirror] (by decide) rfl rfl rfl (Or.inl rfl)
    (by decide) rfl (by decide) (by decide) rfl

/-! ## C5 — one Background Poller pass -/

/-- Structural restatement of the poller loop under distinct mirrors: a
non-activated mirror is popped out of the list being iterated, so the
mirror that slides into the freed position — the next one — is skipped. -/
def pollSpec (env : Env) (store : Store) :
    List Mirror → List Mirror × List SlackUser × List Effect
  | [] => ([], [], [])
  | m :: rest =>
    if ¬ m.mirrored then
      let contrib :=
        if truthy m.mirror_to ∧ truthy m.mirror_direction ∧ truthy m.mirror_type
        then pollStep env store m else ([], [], [])
      let r := match rest with
        | [] => ([], [], [])
        | _ :: rest2 => pollSpec env store rest2
      (contrib.1 ++ r.1, contrib.2.1 ++ r.2.1, contrib.2.2 ++ r.2.2)
    else pollSpec env store rest

/-- `pollSpec` on a cons, with the skip written as `rest.tail`. -/
theorem pollSpec_cons (env : Env) (store : Store) (m : Mirror) (rest : List Mirror) :
    pollSpec env store (m :: rest) =
      if ¬ m.mirrored then
        ((if truthy m.mirror_to ∧ truthy m.mirror_direction ∧ truthy m.mirror_type
          then pollStep env store m else ([], [], [])).1 ++
            (pollSpec env store rest.tail).1,
         (if truthy m.mirror_to ∧ truthy m.mirror_direction ∧ truthy m.mirror_type
          then pollStep env store m else ([], [], [])).2.1 ++
            (pollSpec env store rest.tail).2.1,
         (if truthy m.mirror_to ∧ truthy m.mirror_direction ∧ truthy m.mirror_type
          then pollStep env store m else ([], [], [])).2.2 ++
            (pollSpec env store rest.tail).2.2)
      else pollSpec env store rest := by
  cases rest <;> rfl

/-- Under distinct mirrors, the idx-based loop of `check_for_mirrors` with
CPython pop semantics computes exactly `pollSpec` on the unvisited suffix,
appended to its accumulators. -/
theorem checkForMirrorsLoop_eq_pollSpec (env : Env) (store : Store) :
    ∀ (k : Nat) (mirrors : List Mirror) (idx : Nat) (updM : List Mirror)
      (updU : List SlackUser) (effs : List Effect),
      mirrors.length - idx ≤ k → mirrors.Nodup →
      checkForMirrorsLoop env store idx mirrors updM updU effs =
        (updM ++ (pollSpec env store (mirrors.drop idx)).1,
         updU ++ (pollSpec env store (mirrors.drop idx)).2.1,
         effs ++ (pollSpec env store (mirrors.drop idx)).2.2) := by
  intro k
  induction k with
  | zero =>
    intro mirrors idx updM updU effs hk _
    have hge : mirrors.length ≤ idx := by omega
    unfold checkForMirrorsLoop
    rw [dif_neg (by omega)]
    rw [List.drop_eq_nil_of_le hge]
    simp [pollSpec]
  | succ k ih =>
    intro mirrors idx updM updU effs hk hnd
    by_cases h : idx < mirrors.length
    · have hdrop : mirrors.drop idx = mirrors.get ⟨idx, h⟩ :: mirrors.drop (idx + 1) := by
        rw [List.drop_eq_getElem_cons h]
        rfl
      unfold checkForMirrorsLoop
      rw [dif_pos h]
      by_cases hmir : (mirrors.get ⟨idx, h⟩).mirrored = true
      · rw [if_neg (by simpa using hmir)]
        rw [ih mirrors (idx + 1) updM updU effs (by omega) hnd]
        rw [hdrop, pollSpec_cons]
        rw [if_neg (by simpa using hmir)]
      · rw [if_pos (by simpa using hmir)]
        have hsplit : mirrors = mirrors.take idx ++ mirrors.get ⟨idx, h⟩ :: mirrors.drop (idx + 1) := by
          conv_lhs => rw [← List.take_append_drop idx mirrors]
          rw [hdrop]
        have hmtake : mirrors.get ⟨idx, h⟩ ∉ mirrors.take idx := by
          have h2 : (mirrors.take idx ++ mirrors.get ⟨idx, h⟩ :: mirrors.drop (idx + 1)).Nodup := by
            rw [← hsplit]
            exact hnd
          intro hmem
          exact List.disjoint_of_nodup_append h2 hmem (List.mem_cons_self _ _)
        have herase : mirrors.erase (mirrors.get ⟨idx, h⟩) =
            mirrors.take idx ++ mirrors.drop (idx + 1) := by
          have he2 : (mirrors.take idx ++ mirrors.get ⟨idx, h⟩ :: mirrors.drop (idx + 1)).erase
              (mirrors.get ⟨idx, h⟩) = mirrors.take idx ++ mirrors.drop (idx + 1) := by
            rw [List.erase_append_right _ hmtake, List.erase_cons_head]
          rw [← hsplit] at he2
          exact he2
        have hnd1 : (mirrors.erase (mirrors.get ⟨idx, h⟩)).Nodup := hnd.erase _
        have hlen1 : (mirrors.erase (mirrors.get ⟨idx, h⟩)).length = mirrors.length - 1 := by
          rw [List.length_erase_of_mem (List.get_mem _ _ _)]
        have hltake : (mirrors.take idx).length = idx := by
          rw [List.length_take]
          omega
        have hdrop1 : (mirrors.erase (mirrors.get ⟨idx, h⟩)).drop (idx + 1) =
            (mirrors.drop (idx + 1)).tail := by
          rw [herase]
          have hda : (mirrors.take idx ++ mirrors.drop (idx + 1)).drop
              ((mirrors.take idx).length + 1) = (mirrors.drop (idx + 1)).drop 1 :=
            List.drop_append 1
          rw [hltake] at hda
          rw [hda, List.drop_one]
        by_cases hful : truthy (mirrors.get ⟨idx, h⟩).mirror_to = true ∧
            truthy (mirrors.get ⟨idx, h⟩).mirror_direction = true ∧
            truthy (mirrors.get ⟨idx, h⟩).mirror_type = true
        · rw [if_pos hful]
          rw [ih (mirrors.erase (mirrors.get ⟨idx, h⟩)) (idx + 1) _ _ _ (by omega) hnd1]
          rw [hdrop1, hdrop, pollSpec_cons, if_pos (by simpa using hmir), if_pos hful]
          simp [List.append_assoc]
        · rw [if_neg hful]
          rw [ih (mirrors.erase (mirrors.get ⟨idx, h⟩)) (idx + 1) _ _ _ (by omega) hnd1]
          rw [hdrop1, hdrop, pollSpec_cons, if_pos (by simpa using hmir), if_neg hful]
          simp [List.append_assoc]
    · unfold checkForMirrorsLoop
      rw [dif_neg h]
      rw [List.drop_eq_nil_of_le (by omega)]
      simp [pollSpec]

/-- `check_for_mirrors` under distinct mirrors, via `pollSpec`. -/
theorem check_for_mirrors_eq (env : Env) (store : Store) (hnd : store.mirrors.Nodup) :
    check_for_mirrors env store =
      (if (pollSpec env store store.mirrors).1 ≠ [] then
        ((if (pollSpec env store store.mirrors).2.1 ≠ [] then
            (store.setMirrors (pollSpec env store store.mirrors).1).setUsers
              (pollSpec env store store.mirrors).2.1
          else store.setMirrors (pollSpec env store store.mirrors).1),
         (pollSpec env store store.mirrors).2.2)
       else (store, (pollSpec env store store.mirrors).2.2)) := by
  simp only [check_for_mirrors]
  rw [checkForMirrorsLoop_eq_pollSpec env store store.mirrors.length store.mirrors 0 [] [] []
    (by omega) hnd]
  simp only [List.drop_zero, List.nil_append]

/-- The first of two adjacent non-activated, fully specified mirrors. -/
def c5mA : Mirror :=
  { channel_id := str "CA", channel_name := str "a", investigation_id := str "41",
    mirror_type := str "all", mirror_direction := str "Both",
    mirror_to := str "group", auto_close := false, mirrored := false,
    channel_topic := none, remove := false }

/-- The second of two adjacent non-activated, fully specified mirrors. -/
def c5mB : Mirror :=
  { channel_id := str "CB", channel_name := str "b", investigation_id := str "42",
    mirror_type := str "all", mirror_direction := str "Both",
    mirror_to := str "group", auto_close := false, mirrored := false,
    channel_topic := none, remove := false }

/-- A store whose two mirrors are both awaiting activation. -/
def c5store : Store :=
  { mirrors := [c5mA, c5mB], questions := [], users := [], conversations := [],
    bot_id := none }

/-- C5 counterexample: `c5mB` is non-activated, non-removed and fully
specified, yet after one Background Poller pass it is still not activated —
the loop pops the processed mirror out of the list it is iterating
(`mirrors.pop(mirrors.index(mirror))`, SlackV3.py:489), so `c5mB`, which
slides into the freed position, is skipped this pass.  This refutes "after
one pass, every such eligible mirror in the store is activated". -/
theorem C5_counterexample_pop_skips_adjacent_mirror :
    c5mB.mirrored = false ∧ c5mB.remove = false ∧
    truthy c5mB.mirror_to = true ∧ truthy c5mB.mirror_direction = true ∧
    truthy c5mB.mirror_type = true ∧
    (check_for_mirrors defaultEnv c5store).1.mirrors =
      [{ c5mA with mirrored := true }, c5mB] := by
  refine ⟨rfl, rfl, rfl, rfl, rfl, ?_⟩
  rw [check_for_mirrors_eq defaultEnv c5store (by decide)]
  rfl

/-- The activated copy is what `pollStep` sends to the context write. -/
theorem pollStep_fst (env : Env) (store : Store) (m : Mirror) :
    (pollStep env store m).1 = [{ m with mirrored := true }] := by
  simp only [pollStep]
  split
  · split <;> rfl
  · rfl

/-- Every mirror `pollSpec` sends to the context write is activated. -/
theorem pollSpec_fst_mirrored (env : Env) (store : Store) :
    ∀ (k : Nat) (l : List Mirror), l.length ≤ k →
      ∀ x ∈ (pollSpec env store l).1, x.mirrored = true := by
  intro k
  induction k with
  | zero =>
    intro l hk x hx
    have hl : l = [] := List.eq_nil_of_length_eq_zero (by omega)
    subst hl
    simp [pollSpec] at hx
  | succ k ih =>
    intro l hk x hx
    cases l with
    | nil => simp [pollSpec] at hx
    | cons m0 rest =>
      rw [pollSpec_cons] at hx
      by_cases hm0 : m0.mirrored = true
      · rw [if_neg (by simp [hm0])] at hx
        exact ih rest (by simp at hk; omega) x hx
      · rw [if_pos (by simp [hm0])] at hx
        rcases List.mem_append.mp hx with h1 | h1
        · by_cases hful : truthy m0.mirror_to = true ∧ truthy m0.mirror_direction = true ∧
              truthy m0.mirror_type = true
          · rw [if_pos hful, pollStep_fst] at h1
            simp at h1
            rw [h1]
          · rw [if_neg hful] at h1
            simp at h1
        · refine ih rest.tail ?_ x h1
          simp only [List.length_cons] at hk
          have := List.length_tail rest
          omega

/-- Every mirror in the longest-gap pattern — non-activated, fully
specified, and not immediately preceded by another non-activated mirror —
is sent activated to the context write by `pollSpec`. -/
theorem pollSpec_covers (env : Env) (store : Store) :
    ∀ (k : Nat) (l : List Mirror), l.length ≤ k →
      List.Chain' (fun a b => a.mirrored = true ∨ b.mirrored = true) l →
      ∀ m ∈ l, m.mirrored = false →
        truthy m.mirror_to = true ∧ truthy m.mirror_direction = true ∧
          truthy m.mirror_type = true →
        { m with mirrored := true } ∈ (pollSpec env store l).1 := by
  intro k
  induction k with
  | zero =>
    intro l hk _ m hm _ _
    have hl : l = [] := List.eq_nil_of_length_eq_zero (by omega)
    subst hl
    cases hm
  | succ k ih =>
    intro l hk hchain m hm hmir hful
    cases l with
    | nil => cases hm
    | cons m0 rest =>
      rw [pollSpec_cons]
      rcases List.mem_cons.mp hm with rfl | hm2
      · rw [if_pos (by simp [hmir]), if_pos hful]
        refine List.mem_append_left _ ?_
        rw [pollStep_fst]
        exact List.mem_singleton_self _
      · by_cases hm0 : m0.mirrored = true
        · rw [if_neg (by simp [hm0])]
          exact ih rest (by simp at hk; omega) hchain.tail m hm2 hmir hful
        · rw [if_pos (by simp [hm0])]
          cases rest with
          | nil => cases hm2
          | cons r rest2 =>
            have hr : r.mirrored = true := by
              rcases (List.chain'_cons.mp hchain).1 with h | h
              · exact absurd h hm0
              · exact h
            rcases List.mem_cons.mp hm2 with rfl | hm3
            · rw [hmir] at hr
              cases hr
            · refine List.mem_append_right _ ?_
              exact ih rest2 (by simp at hk; omega) (hchain.tail.tail) m hm3 hmir hful

/-- An element of an upsert is the new element or a surviving old one with
a different key. -/
theorem mem_upsertByKey (key : α → Str) (acc : List α) (u x : α) :
    x ∈ upsertByKey key acc u → x = u ∨ (x ∈ acc ∧ ¬ key x = key u) := by
  unfold upsertByKey
  by_cases hany : acc.any (fun y => key y = key u) = true
  · rw [if_pos hany]
    intro hx
    obtain ⟨y, hy, hyx⟩ := List.mem_map.mp hx
    by_cases hk : key y = key u
    · left
      rw [if_pos hk] at hyx
      exact hyx.symm
    · right
      rw [if_neg hk] at hyx
      subst hyx
      exact ⟨hy, hk⟩
  · rw [if_neg hany]
    intro hx
    rcases List.mem_append.mp hx with h1 | h1
    · right
      refine ⟨h1, ?_⟩
      intro hk
      exact hany (List.any_eq_true.mpr ⟨x, h1, by simp [hk]⟩)
    · left
      simpa using h1

/-- An element of a keyed fold is from the updates, or from the
accumulator with no same-key update other than itself. -/
theorem mem_foldl_upsertByKey (key : α → Str) :
    ∀ (l : List α) (acc : List α) (x : α),
      x ∈ l.foldl (upsertByKey key) acc →
      x ∈ l ∨ (x ∈ acc ∧ ∀ u ∈ l, key u = key x → u = x) := by
  intro l
  induction l with
  | nil =>
    intro acc x hx
    right
    exact ⟨by simpa using hx, by simp⟩
  | cons u l ih =>
    intro acc x hx
    rw [List.foldl_cons] at hx
    rcases ih (upsertByKey key acc u) x hx with h1 | ⟨h1, h2⟩
    · left
      exact List.mem_cons_of_mem _ h1
    · rcases mem_upsertByKey key acc u x h1 with h3 | ⟨h3, h4⟩
      · left
        rw [h3]
        exact List.mem_cons_self _ _
      · right
        refine ⟨h3, ?_⟩
        intro v hv hk
        rcases List.mem_cons.mp hv with rfl | hv2
        · exact absurd hk.symm h4
        · exact h2 v hv2 hk

/-- An element of the keyed Context Store merge is not flagged removed,
and is an update, or an original no update replaced. -/
theorem mem_mergeByKey (key : α → Str) (isRemoved : α → Bool) (orig upd : List α) (x : α) :
    x ∈ mergeByKey key isRemoved orig upd →
    isRemoved x = false ∧
      (x ∈ upd ∨ (x ∈ orig ∧ ∀ u ∈ upd, key u = key x → u = x)) := by
  unfold mergeByKey
  intro hx
  have hf := List.mem_filter.mp hx
  refine ⟨by simpa using hf.2, ?_⟩
  rcases mem_foldl_upsertByKey key upd _ x hf.1 with h1 | ⟨h1, h2⟩
  · left
    exact h1
  · right
    rcases mem_foldl_upsertByKey key orig [] x h1 with h3 | ⟨h3, _⟩
    · exact ⟨h3, h2⟩
    · cases h3

/-- C5 amended: one Background Poller pass activates the eligible mirrors
that do not immediately follow another non-activated mirror in the stored
list.  The loop pops each processed mirror out of the list it iterates
(SlackV3.py:489), so the mirror sliding into the freed position is skipped
for this pass; when no two consecutive stored mirrors are non-activated
(the spec scenario included), after the pass every mirror in the store is
activated or lacks one of channel target, direction and type. -/
theorem C5_amended_pass_activates_nonadjacent (env : Env) (store : Store)
    (hnd : store.mirrors.Nodup)
    (hchain : List.Chain' (fun a b => a.mirrored = true ∨ b.mirrored = true) store.mirrors) :
    ∀ m ∈ (check_for_mirrors env store).1.mirrors,
      m.mirrored = true ∨
      ¬ (truthy m.mirror_to = true ∧ truthy m.mirror_direction = true ∧
         truthy m.mirror_type = true) := by
  intro m hm
  rw [check_for_mirrors_eq env store hnd] at hm
  by_cases hp : (pollSpec env store store.mirrors).1 ≠ []
  · rw [if_pos hp] at hm
    have hm2 : m ∈ mergeByKey (fun m0 => m0.investigation_id) (fun m0 => m0.remove)
        store.mirrors (pollSpec env store store.mirrors).1 := by
      by_cases hu : (pollSpec env store store.mirrors).2.1 ≠ []
      · rw [if_pos hu] at hm
        exact hm
      · rw [if_neg hu] at hm
        exact hm
    rcases (mem_mergeByKey _ _ _ _ _ hm2).2 with h1 | ⟨h1, h2⟩
    · left
      exact pollSpec_fst_mirrored env store store.mirrors.length store.mirrors le_rfl m h1
    · by_contra hcon
      push_neg at hcon
      obtain ⟨hm1, hful⟩ := hcon
      have hc := pollSpec_covers env store store.mirrors.length store.mirrors le_rfl
        hchain m h1 (by simpa using hm1) hful
      have heq := h2 _ hc rfl
      have : true = m.mirrored := congrArg Mirror.mirrored heq
      exact hm1 this.symm
  · rw [if_neg hp] at hm
    have hp2 : (pollSpec env store store.mirrors).1 = [] := not_not.mp hp
    by_contra hcon
    push_neg at hcon
    obtain ⟨hm1, hful⟩ := hcon
    have hc := pollSpec_covers env store store.mirrors.length store.mirrors le_rfl
      hchain m hm (by simpa using hm1) hful
    rw [hp2] at hc
    cases hc

/-- The store for the C5 amended witness: a single awaiting mirror. -/
def c5wstore : Store :=
  { mirrors := [c5mA], questions := [], users := [], conversations := [],
    bot_id := none }

/-- Witness for the C5 amended theorem on the spec scenario shape: one
non-activated fully specified mirror, no non-activated neighbour — after
the pass the stored copy is activated. -/
theorem C5_amended_witness :
    ({ c5mA with mirrored := true } : Mirror) ∈
      (check_for_mirrors defaultEnv c5wstore).1.mirrors ∧
    (({ c5mA with mirrored := true } : Mirror).mirrored = true ∨
     ¬ (truthy ({ c5mA with mirrored := true } : Mirror).mirror_to = true ∧
        truthy ({ c5mA with mirrored := true } : Mirror).mirror_direction = true ∧
        truthy ({ c5mA with mirrored := true } : Mirror).mirror_type = true)) := by
  have hmem : ({ c5mA with mirrored := true } : Mirror) ∈
      (check_for_mirrors defaultEnv c5wstore).1.mirrors := by
    rw [check_for_mirrors_eq defaultEnv c5wstore (by decide)]
    decide
  exact ⟨hmem, C5_amended_pass_activates_nonadjacent defaultEnv c5wstore (by decide)
    (List.chain'_singleton _) _ hmem⟩

/-! ## C6 — re-running the mirror-request command -/

/-- An environment with an open (non-playground) investigation 5. -/
def c6env : Env :=
  { defaultEnv with investigation := some (str "5", 1) }

/-- Mirror-request arguments that re-supply a channel name. -/
def c6args : MirrorArgs :=
  { mtype := none, autoclose := none, direction := none, mirrorTo := none,
    channelName := some (str "mychan"), channelTopic := none, kickAdmin := none }

/-- C6 counterexample: the first call with an explicit `channelName`
succeeds; the second call with the identical arguments and no external
state change is rejected with `Cannot change the Slack channel name.`
(SlackV3.py:698-699), because any truthy `channelName` on an existing
mirror aborts — including the unchanged one.  This refutes "calling it
twice with identical arguments ... succeeds both times". -/
theorem C6_counterexample_identical_rerun_rejected :
    ∃ store1 effs1 effs2,
      mirror_investigation c6env c6args emptyStore = .ok (store1, effs1) ∧
      mirror_investigation c6env c6args store1 =
        .error (str "Cannot change the Slack channel name.", store1, effs2) :=
  ⟨_, _, _, rfl, rfl⟩

/-- Upserting an element already present into a key-distinct accumulator
changes nothing. -/
theorem upsertByKey_self {α : Type} {key : α → Str} {acc : List α} {x : α}
    (hx : x ∈ acc) (hnd : (acc.map key).Nodup) : upsertByKey key acc x = acc := by
  unfold upsertByKey
  rw [if_pos (List.any_eq_true.mpr ⟨x, hx, by simp⟩)]
  have hrepl : ∀ y ∈ acc, (if key y = key x then x else y) = y := by
    intro y hy
    by_cases hk : key y = key x
    · rw [if_pos hk]
      exact List.inj_on_of_nodup_map hnd hx hy hk.symm
    · rw [if_neg hk]
  calc acc.map (fun y => if key y = key x then x else y)
      = acc.map id := List.map_congr_left (fun y hy => by simpa using hrepl y hy)
    _ = acc := List.map_id acc

/-- Folding already-present elements over a key-distinct accumulator
changes nothing. -/
theorem foldl_upsertByKey_subset {α : Type} {key : α → Str} :
    ∀ (l acc : List α), (∀ x ∈ l, x ∈ acc) → (acc.map key).Nodup →
      l.foldl (upsertByKey key) acc = acc := by
  intro l
  induction l with
  | nil => intro acc _ _; rfl
  | cons x l ih =>
    intro acc hsub hnd
    rw [List.foldl_cons, upsertByKey_self (hsub x (by simp)) hnd]
    exact ih acc (fun y hy => hsub y (by simp [hy])) hnd

/-- Writing back a stored element after the popped original (the rerun
shape `orig.erase cm ++ [cm]`) leaves the keyed store unchanged. -/
theorem mergeByKey_self_restore {α : Type} [DecidableEq α] {key : α → Str} {isR : α → Bool}
    (orig : List α) (cm : α) (hcm : cm ∈ orig)
    (hnd : (orig.map key).Nodup) (hnr : ∀ y ∈ orig, isR y = false) :
    mergeByKey key isR orig (orig.erase cm ++ [cm]) = orig := by
  unfold mergeByKey
  rw [foldl_upsertByKey_append orig [] (by simp) hnd]
  simp only [List.nil_append, List.foldl_append]
  rw [foldl_upsertByKey_subset (orig.erase cm) orig
    (fun x hx => List.mem_of_mem_erase hx) hnd]
  simp only [List.foldl_cons, List.foldl_nil]
  rw [upsertByKey_self hcm hnd]
  rw [List.filter_eq_self.mpr]
  intro y hy
  simp [hnr y hy]

/-- The empty string is falsy. -/
theorem truthy_nil : truthy ([] : Str) = false := rfl

/-- Re-finishing an unchanged existing mirror (no channel topic argument,
stored topic already the single-incident topic, channel name unique) is a
store no-op and reports the stored channel name. -/
theorem finishMirror_rerun (env : Env) (store : Store) (cm : Mirror) (iid : Str)
    (kick_admin : Bool) (hcm : cm ∈ store.mirrors)
    (htop : cm.channel_topic = some (incidentChannelName iid))
    (hnd : store.mirrors.Nodup)
    (hknd : (store.mirrors.map (fun m => m.investigation_id)).Nodup)
    (hrem : ∀ m ∈ store.mirrors, m.remove = false)
    (huniq : ∀ m ∈ store.mirrors, ¬ m = cm → ¬ m.channel_name = cm.channel_name) :
    finishMirror env store [] (store.mirrors.erase cm) store.conversations cm
      cm.channel_id cm.channel_name false iid [] kick_admin =
      .ok (store,
        (if kick_admin then [Effect.leaveConv cm.channel_id] else []) ++
        [.results (str "Investigation mirrored successfully, channel: " ++ cm.channel_name)]) := by
  have hcf : (store.mirrors.erase cm).filter (fun m => m.channel_name = cm.channel_name) = [] := by
    rw [List.filter_eq_nil_iff]
    intro a ha
    have ham := List.mem_of_mem_erase ha
    have hane : ¬ a = cm := (List.Nodup.mem_erase_iff hnd).mp ha |>.1
    simpa using huniq a ham hane
  have hupd : ({ cm with channel_topic := some (incidentChannelName iid) } : Mirror) = cm := by
    cases cm with
    | mk a b c d e f g h0 i j =>
      dsimp only at htop ⊢
      rw [htop]
  have hmerge : mergeByKey (fun m => m.investigation_id) (fun m => m.remove)
      store.mirrors (store.mirrors.erase cm ++ [cm]) = store.mirrors :=
    mergeByKey_self_restore store.mirrors cm hcm hknd hrem
  simp only [finishMirror, truthy_nil, Bool.false_eq_true, if_false, htop, hcf,
    List.map_nil, List.nil_append, joinComma]
  rw [if_neg (show ¬ (incidentChannelName iid ≠ incidentChannelName iid) from fun h => h rfl)]
  rw [ite_self]
  simp only [hupd, Store.setMirrors, Store.setConversations, hmerge]
  simp only [Bool.false_eq_true, if_false, List.nil_append, List.append_nil]

/-- C6 amended: the mirror-request command is idempotent only when the
`channelName` and `channelTopic` arguments are not re-supplied.  A second
call whose effective arguments all match the stored mirror created for the
case (stored topic already the single-incident topic, channel name unique
to that mirror) succeeds, reports the same channel name, and leaves the
Context Store exactly unchanged — so no other mirror is mutated.
Re-supplying the identical `channelName` instead aborts the second call
with `Cannot change the Slack channel name.` (SlackV3.py:698-699). -/
theorem C6_amended_rerun_without_channel_args_is_noop (env : Env) (args : MirrorArgs)
    (store : Store) (cm : Mirror) (iid : Str) (ityp : Nat) (kick_admin : Bool)
    (hinv : env.investigation = some (iid, ityp))
    (hplay : ¬ ityp = playgroundInvestigationType)
    (hka : pyStrtobool (args.kickAdmin.getD (str "false")) = .ok kick_admin)
    (hacS : pyStrtobool (args.autoclose.getD (str "true")) = .ok cm.auto_close)
    (hmt : args.mtype.getD (str "all") = cm.mirror_type)
    (hdir : args.direction.getD (str "both") = cm.mirror_direction)
    (hto : args.mirrorTo.getD (str "group") = cm.mirror_to)
    (hcn : args.channelName = none)
    (hct : args.channelTopic = none)
    (hcur : store.mirrors.filter (fun m => m.investigation_id = iid) = [cm])
    (hmirf : cm.mirrored = false)
    (htop : cm.channel_topic = some (incidentChannelName iid))
    (hnd : store.mirrors.Nodup)
    (hknd : (store.mirrors.map (fun m => m.investigation_id)).Nodup)
    (hrem : ∀ m ∈ store.mirrors, m.remove = false)
    (huniq : ∀ m ∈ store.mirrors, ¬ m = cm → ¬ m.channel_name = cm.channel_name) :
    mirror_investigation env args store =
      .ok (store,
        (if kick_admin then [Effect.leaveConv cm.channel_id] else []) ++
        [.results (str "Investigation mirrored successfully, channel: " ++ cm.channel_name)]) := by
  have hcmf : cm ∈ store.mirrors.filter (fun m => m.investigation_id = iid) := by
    rw [hcur]
    exact List.mem_cons_self _ _
  have hcm : cm ∈ store.mirrors := List.mem_of_mem_filter hcmf
  have hfin := finishMirror_rerun env store cm iid kick_admin hcm htop hnd hknd hrem huniq
  have hm1 : (if truthy (args.mtype.getD (str "all")) = true
      then { cm with mirror_type := args.mtype.getD (str "all") } else cm) = cm := by
    rw [hmt]
    cases cm
    simp
  have he1 : ({ cm with auto_close := cm.auto_close } : Mirror) = cm := by
    cases cm
    rfl
  have he2 : (if truthy (args.direction.getD (str "both")) = true
      then { cm with mirror_direction := args.direction.getD (str "both") } else cm) = cm := by
    rw [hdir]
    cases cm
    simp
  have he3 : ({ cm with mirrored := false } : Mirror) = cm := by
    cases cm with
    | mk a b c d e f g h0 i j =>
      dsimp only at hmirf ⊢
      rw [hmirf]
  simp only [mirror_investigation, hka, hinv, hcn, hct, Option.getD_none]
  rw [if_neg hplay]
  simp only [hcur, hm1]
  rw [hto]
  by_cases htr : truthy (args.autoclose.getD (str "true")) = true
  · rw [if_pos htr]
    simp only [hacS, Except.map, he1, he2, he3]
    rw [if_neg (fun h => h.2 rfl)]
    simp only [truthy_nil, Bool.false_eq_true, if_false]
    exact hfin
  · rw [if_neg htr]
    simp only [he2, he3]
    rw [if_neg (fun h => h.2 rfl)]
    simp only [truthy_nil, Bool.false_eq_true, if_false]
    exact hfin

/-- The stored mirror of case 5 after a first, argument-free mirror
request. -/
def c6wMirror : Mirror :=
  { channel_id := str "CNEW", channel_name := str "incident-5",
    investigation_id := str "5", mirror_type := str "all",
    mirror_direction := str "both", mirror_to := str "group",
    auto_close := true, mirrored := false,
    channel_topic := some (str "incident-5"), remove := false }

/-- The Context Store after that first request. -/
def c6wstore : Store :=
  { mirrors := [c6wMirror], questions := [], users := [],
    conversations := [{ id := str "CNEW", name := str "incident-5" }],
    bot_id := some (str "B1") }

/-- A rerun with every argument left to its default. -/
def c6wargs : MirrorArgs :=
  { mtype := none, autoclose := none, direction := none, mirrorTo := none,
    channelName := none, channelTopic := none, kickAdmin := none }

/-- Witness for the C6 amended theorem: the default-argument rerun on the
stored state succeeds, returns the same channel and leaves the store
untouched. -/
theorem C6_amended_witness :
    mirror_investigation c6env c6wargs c6wstore =
      .ok (c6wstore,
        (if false then [Effect.leaveConv c6wMirror.channel_id] else []) ++
        [.results (str "Investigation mirrored successfully, channel: " ++
          c6wMirror.channel_name)]) :=
  C6_amended_rerun_without_channel_args_is_noop c6env c6wargs c6wstore c6wMirror
    (str "5") 1 false rfl (by decide) rfl rfl rfl rfl rfl rfl rfl rfl rfl rfl
    (by decide) (by decide) (by decide) (by decide)

end SlackV3
